import Mathlib

/-!
Verification development for the competition-Q&A retrieval engine
(`SimpleRAG.search` / `SimpleRAG._calculate_score` / `SimpleRAG._build_index`,
`StructuredCompetitionKB.query`, `QueryRouter.route_query`).

The Python code is shallowly embedded:
* Python strings are `List Char` (`Txt`), so that indices, lengths and
  substring tests use code-point semantics as in CPython.
* Python floats are modelled as exact rationals `ℚ`; every arithmetic
  expression of the scorer is translated literally.
* External libraries are oracles passed as parameters: `jieba` word
  segmentation (`Oracles.jiebaPos`, `Oracles.jiebaCut`), the iteration
  order of the Python `set` of domain terms (`Oracles.termSetOrder`),
  the regex engine used by the router's pattern fallback
  (`Oracles.patternMatch`), and `random.choice` (`Oracles.randChoice`).
* Fallible Python operations (`dict.get(...).copy()` on a missing key,
  and any exception escaping the scorer) run in `Except`; the
  `try/except` of `SimpleRAG.search` is the wrapper `searchWith`.
-/

namespace RobotRAG

/-- Text is a list of Unicode code points, mirroring Python `str`. -/
abbrev Txt : Type := List Char

/-- Python `str.lower()` (ASCII-level case folding). -/
def pyLower (s : Txt) : Txt := s.map Char.toLower

/-- Python `str.strip()`: drop leading and trailing whitespace. -/
def pyStrip (s : Txt) : Txt :=
  ((s.dropWhile Char.isWhitespace).reverse.dropWhile Char.isWhitespace).reverse

/-- Python `hay.find(pat)`: index of the first occurrence of `pat` in `hay`,
`none` for Python's `-1`.  `find("") = 0` as in CPython. -/
def strFind (hay pat : Txt) : Option Nat :=
  match hay with
  | [] => if pat.isEmpty then some 0 else none
  | c :: t => if pat.isPrefixOf (c :: t) then some 0 else (strFind t pat).map (· + 1)

/-- Python `pat in hay` (substring containment). -/
def pyContains (hay pat : Txt) : Bool := (strFind hay pat).isSome

/-- Helper for `pyCount`: scan `hay`, skipping `k` characters consumed by a
previous match (non-overlapping counting, as in CPython `str.count`). -/
def pyCountAux (pat : Txt) : Txt → Nat → Nat
  | [], _ => 0
  | _ :: t, k + 1 => pyCountAux pat t k
  | c :: t, 0 =>
    if pat.isPrefixOf (c :: t) then 1 + pyCountAux pat t (pat.length - 1)
    else pyCountAux pat t 0

/-- Python `hay.count(pat)`: non-overlapping occurrence count;
`count("") = len(hay) + 1` as in CPython. -/
def pyCount (hay pat : Txt) : Nat :=
  if pat.isEmpty then hay.length + 1 else pyCountAux pat hay 0

/-- Helper for `pySplitWs`: accumulate the current word (reversed). -/
def pySplitWsAux : Txt → Txt → List Txt
  | [], cur => if cur.isEmpty then [] else [cur.reverse]
  | c :: t, cur =>
    if c.isWhitespace then
      if cur.isEmpty then pySplitWsAux t [] else cur.reverse :: pySplitWsAux t []
    else pySplitWsAux t (c :: cur)

/-- Python `str.split()` with no argument: split on whitespace runs,
dropping empty fields. -/
def pySplitWs (s : Txt) : List Txt := pySplitWsAux s []

/-- Characters of the clause-splitting class `[,，.。;；?？!！、\s]` used by
`_calculate_score` (stage 3). -/
def isClauseSep (c : Char) : Bool :=
  c ∈ [',', '，', '.', '。', ';', '；', '?', '？', '!', '！', '、'] || c.isWhitespace

/-- Helper for `pySplitClause`. -/
def pySplitClauseAux : Txt → Txt → List Txt
  | [], cur => [cur.reverse]
  | c :: t, cur =>
    if isClauseSep c then cur.reverse :: pySplitClauseAux t []
    else pySplitClauseAux t (c :: cur)

/-- Python `re.split(r'[,，.。;；?？!！、\s]', s)`: split at every separator
character, keeping empty fields (they are filtered later by length). -/
def pySplitClause (s : Txt) : List Txt := pySplitClauseAux s []

/-- Helper for `splitOnNl`. -/
def splitOnNlAux : Txt → Txt → List Txt
  | [], cur => [cur.reverse]
  | c :: t, cur =>
    if c = '\n' then cur.reverse :: splitOnNlAux t []
    else splitOnNlAux t (c :: cur)

/-- Python `s.split('\n')`: split at every newline, keeping empty fields. -/
def splitOnNl (s : Txt) : List Txt := splitOnNlAux s []

/-- Python `" ".join(words)`. -/
def joinSpace (l : List Txt) : Txt := List.intercalate [' '] l

/-- Python `dict` lookup on an insertion-ordered association list
(first binding wins; build code never duplicates keys). -/
def alookup {β : Type} : List (Txt × β) → Txt → Option β
  | [], _ => none
  | p :: t, k => if p.1 = k then some p.2 else alookup t k

/-- Python `d.setdefault(k, []).append(v)` / `defaultdict(list)[k].append(v)`:
append `v` to the list stored at `k`, creating the key at the end if absent. -/
def dictAppend (d : List (Txt × List Txt)) (k : Txt) (v : Txt) : List (Txt × List Txt) :=
  if (alookup d k).isSome then
    d.map (fun p => if p.1 = k then (p.1, p.2 ++ [v]) else p)
  else d ++ [(k, [v])]

/-- Python truthiness of an optional string: `None` and `""` are falsy. -/
def optTruthy : Option Txt → Bool
  | some s => !s.isEmpty
  | none => false

/-- Decimal rendering of a natural number, for Python's `f"doc_{doc_id}"`. -/
def natToTxt (n : Nat) : Txt := (Nat.repr n).toList

/-! ### Configuration (`app/config.py` defaults and the module constant
`COMPETITION_TERMS` of `SimpleRAG.py`) -/

/-- Default of `settings.COMPETITION_TYPES`. -/
def defaultCompetitionTypes : List Txt :=
  ["人工智能创新挑战赛", "3D编程模型创新设计专项赛", "机器人工程挑战赛",
   "极地资源勘探设计大赛", "竞技机器人专项赛", "开源鸿蒙专项赛",
   "人工智能综合创新专项赛", "三维程序创意设计大赛", "生成式人工智能应用专项赛",
   "太空电梯设计专项赛", "太空探索智能机器人大赛", "虚拟仿真平台创新设计专项赛",
   "智能数据采集与处理专项赛", "智能芯片创新设计大赛", "计算思维与人工智能专项赛",
   "未来校园智能应用专项赛"].map String.toList

/-- Default of `settings.COMPETITION_KEYWORDS`. -/
def defaultCompetitionKeywords : List Txt :=
  ["泰迪杯", "数据挖掘挑战赛", "3D编程模型", "机器人工程",
   "极地资源勘探", "竞技机器人", "开源鸿蒙",
   "人工智能综合创新", "三维程序创意", "生成式人工智能",
   "太空电梯", "太空探索", "虚拟仿真平台",
   "智能数据采集", "智能芯片", "计算思维", "未来校园"].map String.toList

/-- The module constant `COMPETITION_TERMS` of `SimpleRAG.py`
(category name, term list). -/
def defaultCompetitionTerms : List (Txt × List Txt) :=
  [("竞赛类型",
    ["人工智能创新挑战赛", "3D编程模型创新设计专项赛", "机器人工程挑战赛",
     "极地资源勘探设计大赛", "竞技机器人专项赛", "开源鸿蒙专项赛",
     "人工智能综合创新专项赛", "三维程序创意设计大赛", "生成式人工智能应用专项赛",
     "太空电梯设计专项赛", "太空探索智能机器人大赛", "虚拟仿真平台创新设计专项赛",
     "智能数据采集与处理专项赛", "智能芯片创新设计大赛", "计算思维与人工智能专项赛",
     "未来校园智能应用专项赛"]),
   ("竞赛阶段",
    ["报名", "初赛", "复赛", "决赛", "作品提交", "结果公布",
     "颁奖", "开幕式", "闭幕式", "答辩", "评审"]),
   ("竞赛要素",
    ["参赛资格", "参赛条件", "参赛要求", "参赛流程", "评分标准",
     "奖项设置", "报名方式", "报名费用", "报名时间", "比赛时间",
     "提交要求", "提交方式", "提交时间", "评审方式", "评审标准"]),
   ("竞赛内容",
    ["赛题", "题目", "任务", "要求", "目标", "创新点",
     "技术路线", "解决方案", "实现方法", "评价指标", "验收标准"]),
   ("参赛作品",
    ["论文", "代码", "设计", "模型", "方案", "报告",
     "演示", "展示", "答辩", "PPT", "视频", "海报"])
  ].map (fun p => (p.1.toList, p.2.map String.toList))

/-- Default of `settings.CRITICAL_PHRASES_SCORING` (phrase, bonus). -/
def defaultCriticalPhrases : List (Txt × ℚ) :=
  [("报名截止", 3), ("提交时间", 14/5), ("参赛要求", 27/10), ("参赛资格", 5/2),
   ("参赛对象", 5/2), ("评分标准", 5/2), ("评审方式", 23/10), ("奖项设置", 23/10),
   ("比赛流程", 11/5), ("官方网站", 2), ("联系方式", 2), ("介绍", 2),
   ("简介", 2), ("是什么", 2), ("怎么样", 9/5), ("如何", 9/5),
   ("要求", 9/5), ("标准", 17/10), ("截止日期", 5/2), ("评分规则", 23/10),
   ("作品提交", 5/2), ("参赛条件", 5/2), ("参赛组别", 23/10), ("获奖条件", 11/5),
   ("奖金", 2), ("时间安排", 23/10), ("内容要求", 11/5), ("报名方式", 23/10),
   ("作品要求", 5/2)].map (fun p => (p.1.toList, p.2))

/-- The tuning parameters consumed by `SimpleRAG`, with the defaults of
`app/config.py`. -/
structure Settings where
  scoreThreshold : ℚ := 3/100
  chunkSize : Nat := 1500
  chunkOverlap : Nat := 400
  maxKeywordsPerQuery : Nat := 20
  maxKeywordsPerChunk : Nat := 40
  competitionTypeBoostFactor : ℚ := 5/2
  keywordMatchBaseWeight : ℚ := 3/2
  directQueryMatchBonus : ℚ := 4
  criticalPhrasesScoring : List (Txt × ℚ) := defaultCriticalPhrases
  competitionTypes : List Txt := defaultCompetitionTypes
  competitionKeywords : List Txt := defaultCompetitionKeywords
  competitionTerms : List (Txt × List Txt) := defaultCompetitionTerms
  stopwords : List Txt := []

/-- The repository's default configuration. -/
def defaultSettings : Settings := {}

/-- Oracles abstracting the external libraries the engine calls:
`jieba.posseg.lcut` (word, part-of-speech flag), `jieba.cut`, the hash
iteration order of the Python `set` of domain terms inside
`_extract_keywords` (fixed within one process), the regex engine behind
`QueryRouter`'s pattern table, and `random.choice` (the `i`-th draw picks
index `randChoice i` modulo the candidate count). -/
structure Oracles where
  jiebaPos : Txt → List (Txt × Txt)
  jiebaCut : Txt → List Txt
  termSetOrder : List Txt
  patternMatch : Txt → Option Txt
  randChoice : Nat → Nat

/-! ### The scorer: `SimpleRAG._calculate_score` (lines 635-772) -/

/-- `length_factor = 1.0 + min(len(kw) / 5.0, 2.0)`. -/
def lengthFactor (kw : Txt) : ℚ := 1 + min ((kw.length : ℚ) / 5) 2

/-- `frequency_factor = min(1.0 + kw_count / 10.0, 2.0)` (`kw_count` the
non-overlapping occurrence count of the lowered keyword). -/
def frequencyFactor (docLower kwLower : Txt) : ℚ :=
  min (1 + (pyCount docLower kwLower : ℚ) / 10) 2

/-- `position_factor`: 1.5 when the first occurrence lies in the first 20%
of the chunk, 1.25 when in the first 50%, else 1.0 (and 1.0 when absent,
matching the `position_index >= 0` guard). -/
def positionFactor (docLower kwLower : Txt) : ℚ :=
  match strFind docLower kwLower with
  | some i =>
    if (i : ℚ) / (docLower.length : ℚ) < 1/5 then 3/2
    else if (i : ℚ) / (docLower.length : ℚ) < 1/2 then 5/4
    else 1
  | none => 1

/-- `term_bonus`: 1.5 when the keyword appears in any category of the
curated `COMPETITION_TERMS` table (the membership test uses the un-lowered
keyword, as in the source). -/
def termBonus (s : Settings) (kw : Txt) : ℚ :=
  if s.competitionTerms.any (fun p => kw ∈ p.2) then 3/2 else 1

/-- Per-keyword weight of the keyword-match stage: `base_weight *
length_factor * frequency_factor * position_factor * term_bonus`
for a keyword whose lowered form occurs in `docLower`. -/
def kwWeight (s : Settings) (docLower : Txt) (kw : Txt) : ℚ :=
  s.keywordMatchBaseWeight * lengthFactor kw * frequencyFactor docLower (pyLower kw)
    * positionFactor docLower (pyLower kw) * termBonus s kw

/-- Stage 1 of `_calculate_score`: fold over the query keywords accumulating
`keyword_score` and the Python set `matched_keywords`. -/
def keywordStage (s : Settings) (docLower : Txt) (keywords : List Txt) : ℚ × Finset Txt :=
  keywords.foldl
    (fun acc kw =>
      if pyContains docLower (pyLower kw) then
        (acc.1 + kwWeight s docLower kw, insert kw acc.2)
      else acc)
    (0, ∅)

/-- Stages 1-2 of `_calculate_score`: keyword-match score followed by the
coverage adjustment `total *= 0.5 + matched/len(keywords)`, which the code
applies only when `keywords` is non-empty and the accumulated score is
positive. -/
def keywordCoverageScore (s : Settings) (docLower : Txt) (keywords : List Txt) : ℚ :=
  let st := keywordStage s docLower keywords
  if keywords.isEmpty then st.1
  else if 0 < st.1 then st.1 * (1/2 + (st.2.card : ℚ) / (keywords.length : ℚ))
  else st.1

/-- Stage 3 of `_calculate_score`: direct-query-match bonus.  If the full
lowered query occurs in the chunk, add `2 * direct_query_match_bonus`;
otherwise add, for every clause of length `> 3` occurring in the chunk,
`direct_query_match_bonus * (0.5 + 0.5 * len(clause)/len(query))`.
Only applies when the lowered query is longer than 2 characters. -/
def directMatchBonusAmt (s : Settings) (queryLower docLower : Txt) : ℚ :=
  if 2 < queryLower.length then
    if pyContains docLower queryLower then s.directQueryMatchBonus * 2
    else
      ((pySplitClause queryLower).filter (fun p => 3 < p.length)).foldl
        (fun acc p =>
          if pyContains docLower p then
            acc + s.directQueryMatchBonus *
              (1/2 + 1/2 * (p.length : ℚ) / (queryLower.length : ℚ))
          else acc) 0
  else 0

/-- Stage 4 of `_calculate_score`: critical-phrase bonuses, doubled when the
phrase also occurs in the query. -/
def phraseBonusAmt (s : Settings) (queryLower docLower : Txt) : ℚ :=
  s.criticalPhrasesScoring.foldl
    (fun acc pb =>
      if pyContains docLower (pyLower pb.1) then
        acc + (if pyContains queryLower (pyLower pb.1) then pb.2 * 2 else pb.2)
      else acc) 0

/-- Stage-5 guard of `_calculate_score`: both types truthy and matching
(substring either direction on the lowered names, or the raw query occurring
in the chunk's competition name). -/
def compMatchCond (query : Txt) (docCompetition competitionType : Option Txt) : Bool :=
  match competitionType, docCompetition with
  | some c, some d =>
    !c.isEmpty && !d.isEmpty &&
      (pyContains (pyLower d) (pyLower c) || pyContains (pyLower c) (pyLower d)
        || pyContains d query)
  | _, _ => false

/-- Stage 5 of `_calculate_score`: multiply by the competition-type boost
factor, strengthened by 1.5 when the pre-boost score is below 0.2. -/
def compBoostApply (s : Settings) (query : Txt) (docCompetition competitionType : Option Txt)
    (x : ℚ) : ℚ :=
  if compMatchCond query docCompetition competitionType then
    x * (s.competitionTypeBoostFactor * (if x < 1/5 then 3/2 else 1))
  else x

/-- Stage 6 of `_calculate_score`: length normalization on the whitespace
word count of the chunk, applied only when the factor is not 1 and the
score is positive. -/
def lengthAdjustApply (docLower : Txt) (x : ℚ) : ℚ :=
  let wc : Nat := (pySplitWs docLower).length
  let lf : ℚ :=
    if wc < 20 then 4/5 + 1/5 * ((wc : ℚ) / 20)
    else if 200 < wc then 1 - 1/5 * min (((wc : ℚ) - 200) / 300) 1
    else 1
  if lf ≠ 1 ∧ 0 < x then x * lf else x

/-- Stages 1-4 of `_calculate_score`: the score before the competition-type
boost and the length normalization. -/
def preBoostScore (s : Settings) (query docText : Txt) (keywords : List Txt) : ℚ :=
  keywordCoverageScore s (pyLower docText) keywords
    + directMatchBonusAmt s (pyLower query) (pyLower docText)
    + phraseBonusAmt s (pyLower query) (pyLower docText)

/-- `SimpleRAG._calculate_score`: relevance of a chunk for a query.  Returns
`0` when the chunk text is empty or both the keyword list and the query are
empty, exactly as the guard `if not doc_text or not (keywords or query)`. -/
def calcScore (s : Settings) (query docText : Txt) (keywords : List Txt)
    (docCompetition competitionType : Option Txt) : ℚ :=
  if docText = [] ∨ (keywords = [] ∧ query = []) then 0
  else
    lengthAdjustApply (pyLower docText)
      (compBoostApply s query docCompetition competitionType
        (preBoostScore s query docText keywords))

/-! ### Claim C5's reading of the keyword-match stage, written from the
specification text (used only to be compared with the source-derived
`keywordCoverageScore`). -/

/-- Modelled from the spec sentence of C5: the contribution of one matched
term, `base_weight * length_factor * frequency_factor * position_factor *
term_bonus` with `length_factor = 1 + min(term_length/5, 2)`,
`frequency_factor = 1 + min(occurrences/10, 1)`, `position_factor` from the
first-occurrence position, `term_bonus = 1.5` for curated domain terms. -/
def specTermContribution (s : Settings) (docLower : Txt) (kw : Txt) : ℚ :=
  let lengthFactor : ℚ := 1 + min ((kw.length : ℚ) / 5) 2
  let frequencyFactor : ℚ := 1 + min ((pyCount docLower (pyLower kw) : ℚ) / 10) 1
  let positionFactor : ℚ :=
    match strFind docLower (pyLower kw) with
    | some i =>
      if (i : ℚ) / (docLower.length : ℚ) < 1/5 then 3/2
      else if (i : ℚ) / (docLower.length : ℚ) < 1/2 then 5/4
      else 1
    | none => 1
  let termBonus : ℚ :=
    if s.competitionTerms.any (fun p => kw ∈ p.2) then 3/2 else 1
  s.keywordMatchBaseWeight * lengthFactor * frequencyFactor * positionFactor * termBonus

/-- Modelled from the spec sentences of C5: every query term found in the
chunk contributes `specTermContribution`, and the accumulated score is
multiplied by `0.5 + coverage` (coverage = distinct matched terms over total
query terms), applied only when the score is positive. -/
def keywordCoverageScoreSpec (s : Settings) (docLower : Txt) (keywords : List Txt) : ℚ :=
  let matched := keywords.filter (fun kw => pyContains docLower (pyLower kw))
  let raw := (matched.map (specTermContribution s docLower)).sum
  if 0 < raw then
    raw * (1/2 + (matched.dedup.length : ℚ) / (keywords.length : ℚ))
  else raw

/-! ### Keyword extraction: `SimpleRAG._extract_keywords` (lines 331-419) -/

/-- The part-of-speech flags `_extract_keywords` keeps in its main pass. -/
def allowedPos : List Txt :=
  ["n", "v", "a", "nr", "ns", "nt", "nz", "vn", "an", "j", "i", "l", "eng",
   "nrt"].map String.toList

/-- Python `flag.startswith('n')`. -/
def flagStartsN : Txt → Bool
  | 'n' :: _ => true
  | _ => false

/-- The relaxed second pass of `_extract_keywords` for queries with fewer
than 3 extracted terms: admit single-character nouns and any multi-character
word not in the stopword set, stopping once `maxCount` terms are collected
(the stop test runs even when the current word was not admitted, as in the
source). -/
def relaxedExtract (s : Settings) (maxCount : Nat) :
    List (Txt × Txt) → List Txt → List Txt
  | [], acc => acc
  | wf :: rest, acc =>
    let w := pyLower (pyStrip wf.1)
    if w ≠ [] ∧ w ∉ s.stopwords ∧ w ∉ acc then
      let acc' :=
        if w.length = 1 ∧ flagStartsN wf.2 then acc ++ [w]
        else if 1 < w.length then acc ++ [w]
        else acc
      if maxCount ≤ acc'.length then acc'
      else relaxedExtract s maxCount rest acc'
    else relaxedExtract s maxCount rest acc

/-- `SimpleRAG._extract_keywords`: ordered keyword extraction.  Priority:
(1) configured competition names occurring in the text, (2) domain terms (in
the process-fixed set-iteration order `o.termSetOrder`), (3) part-of-speech
filtered words from `jieba`, deduplicated by first occurrence; for queries a
relaxed pass runs when fewer than 3 terms were found; the result is truncated
to `maxCount`. -/
def extractKeywords (o : Oracles) (s : Settings) (text : Txt)
    (maxCount0 : Option Nat) (forQuery : Bool) : List Txt :=
  if text = [] then []
  else
    let maxCount := maxCount0.getD
      (if forQuery then s.maxKeywordsPerQuery else s.maxKeywordsPerChunk)
    let compFound := s.competitionTypes.filter (fun ct => pyContains text ct)
    let wordsWithPos := o.jiebaPos text
    let k1 := compFound.foldl
      (fun acc ct => if ct ∈ acc then acc else acc ++ [ct]) []
    let k2 := o.termSetOrder.foldl
      (fun acc term =>
        if pyContains text term ∧ term ∉ acc ∧ 1 < term.length then acc ++ [term]
        else acc) k1
    let k3 := wordsWithPos.foldl
      (fun acc wf =>
        let w := pyLower (pyStrip wf.1)
        if wf.2 ∈ allowedPos ∧ w ∉ s.stopwords ∧ 1 < w.length ∧ w ∉ acc then
          acc ++ [w]
        else acc) k2
    let k4 :=
      if forQuery ∧ k3.length < 3 then relaxedExtract s maxCount wordsWithPos k3
      else k3
    k4.take maxCount

/-- `SimpleRAG._detect_competition_type`: first configured competition name
occurring in the text; otherwise, for the first configured keyword occurring
in the text that is contained in some competition name, that name. -/
def detectAux (s : Settings) (text : Txt) : List Txt → Option Txt
  | [] => none
  | kw :: rest =>
    if pyContains text kw then
      match s.competitionTypes.find? (fun ct => pyContains ct kw) with
      | some ct => some ct
      | none => detectAux s text rest
    else detectAux s text rest

/-- `SimpleRAG._detect_competition_type` (lines 282-301). -/
def detectCompetitionType (s : Settings) (text : Txt) : Option Txt :=
  match s.competitionTypes.find? (fun ct => pyContains text ct) with
  | some ct => some ct
  | none => detectAux s text s.competitionKeywords

/-! ### Retrieval state and the two scoring loops of `SimpleRAG.search`
(lines 455-633) -/

/-- One stored chunk record, as written by `_build_index`:
`{"content", "source", "page", "competition"}`. -/
structure Doc where
  content : Txt
  source : Txt
  page : Nat
  competition : Option Txt
deriving DecidableEq

/-- The in-memory index triple of `SimpleRAG`: term → chunk ids
(`self.index`), chunk id → record (`self.documents`), competition type →
chunk ids (`self.competition_docs`), all insertion-ordered like Python
dicts. -/
structure RAGState where
  index : List (Txt × List Txt)
  documents : List (Txt × Doc)
  competitionDocs : List (Txt × List Txt)
deriving DecidableEq

/-- One entry of the list returned by `search`: the copied chunk record plus
the keys `search` writes (`score`, `is_fallback`).  `pyId` models the
dictionary's `"id"` key, which `search` never sets — `d.get("id")` is always
`None`, which is what makes the duplicate tests of the relaxed and third
stages vacuous. -/
structure SearchResult where
  doc : Doc
  score : ℚ
  isFallback : Bool
  pyId : Option Txt
deriving DecidableEq

/-- Descending-score order on scored chunk ids (Python
`sorted(..., key=lambda x: x[1], reverse=True)`, a stable sort). -/
def pairGE (a b : Txt × ℚ) : Prop := b.2 ≤ a.2

instance : DecidableRel pairGE := fun a b => inferInstanceAs (Decidable (b.2 ≤ a.2))

instance : IsTotal (Txt × ℚ) pairGE := ⟨fun a b => le_total b.2 a.2⟩

instance : IsTrans (Txt × ℚ) pairGE := ⟨fun _ _ _ h1 h2 => le_trans h2 h1⟩

/-- Descending-score order on search results (the final
`sorted(results, key=lambda x: x.get("score", 0), reverse=True)`). -/
def resGE (a b : SearchResult) : Prop := b.score ≤ a.score

instance : DecidableRel resGE := fun a b => inferInstanceAs (Decidable (b.score ≤ a.score))

instance : IsTotal SearchResult resGE := ⟨fun a b => le_total b.score a.score⟩

instance : IsTrans SearchResult resGE := ⟨fun _ _ _ h1 h2 => le_trans h2 h1⟩

/-- A scorer that may raise: the shape under which `search` consumes
`_calculate_score` (query, chunk text, keywords, chunk competition, target
competition). -/
abbrev ScoreFn : Type := Txt → Txt → List Txt → Option Txt → Option Txt → Except Txt ℚ

/-- The actual scorer of the engine, which is total. -/
def realScoreFn (s : Settings) : ScoreFn :=
  fun query docText keywords dc ct => .ok (calcScore s query docText keywords dc ct)

/-- The guard of the 1.5x same-type bonus in the keyword loop:
`doc_competition and competition_type and doc_competition ==
competition_type`. -/
def sameTypeCond (docCompetition competitionType : Option Txt) : Bool :=
  optTruthy docCompetition && optTruthy competitionType
    && docCompetition == competitionType

/-- First scoring loop of `search` (lines 502-518): score every chunk of the
target competition type, multiply by the configured boost factor, and record
it in the insertion-ordered score dict, skipping already-processed ids and
ids with no stored record. -/
def scoreCompDocsE (f : ScoreFn) (s : Settings) (st : RAGState) (query : Txt)
    (keywords : List Txt) (competitionType : Option Txt) :
    List Txt → List (Txt × ℚ) → Except Txt (List (Txt × ℚ))
  | [], acc => .ok acc
  | docId :: rest, acc =>
    if (alookup acc docId).isSome then
      scoreCompDocsE f s st query keywords competitionType rest acc
    else
      match alookup st.documents docId with
      | none => scoreCompDocsE f s st query keywords competitionType rest acc
      | some doc => do
        let sc ← f query doc.content keywords doc.competition competitionType
        scoreCompDocsE f s st query keywords competitionType rest
          (acc ++ [(docId, sc * s.competitionTypeBoostFactor)])

/-- Inner loop of the second scoring pass (lines 524-542): score every chunk
on one keyword's posting list, with the 1.5x bonus when the chunk's
competition type equals the target. -/
def scoreKwInnerE (f : ScoreFn) (st : RAGState) (query : Txt) (keywords : List Txt)
    (competitionType : Option Txt) :
    List Txt → List (Txt × ℚ) → Except Txt (List (Txt × ℚ))
  | [], acc => .ok acc
  | docId :: rest, acc =>
    if (alookup acc docId).isSome then
      scoreKwInnerE f st query keywords competitionType rest acc
    else
      match alookup st.documents docId with
      | none => scoreKwInnerE f st query keywords competitionType rest acc
      | some doc => do
        let sc ← f query doc.content keywords doc.competition competitionType
        let sc := if sameTypeCond doc.competition competitionType then sc * (3/2) else sc
        scoreKwInnerE f st query keywords competitionType rest (acc ++ [(docId, sc)])

/-- Outer loop of the second scoring pass (lines 521-542): walk the query
keywords, looking each up in the inverted index. -/
def scoreKwDocsE (f : ScoreFn) (st : RAGState) (query : Txt) (keywords : List Txt)
    (competitionType : Option Txt) :
    List Txt → List (Txt × ℚ) → Except Txt (List (Txt × ℚ))
  | [], acc => .ok acc
  | kw :: rest, acc =>
    match alookup st.index kw with
    | none => scoreKwDocsE f st query keywords competitionType rest acc
    | some ids => do
      let acc' ← scoreKwInnerE f st query keywords competitionType ids acc
      scoreKwDocsE f st query keywords competitionType rest acc'

/-- The keyword list `search` works with: query-mode extraction, falling back
to whitespace splitting when extraction found nothing (lines 471-476). -/
def searchKeywords (o : Oracles) (s : Settings) (query : Txt) : List Txt :=
  let k := extractKeywords o s query (some s.maxKeywordsPerQuery) true
  if k.isEmpty then pySplitWs query else k

/-- The competition type `search` works with: the caller's argument when
truthy, else the type detected from the query text, else the caller's
argument unchanged (lines 481-486). -/
def searchCompType (s : Settings) (query : Txt) (competitionType0 : Option Txt) :
    Option Txt :=
  if optTruthy competitionType0 then competitionType0
  else
    match detectCompetitionType s query with
    | some d => some d
    | none => competitionType0

/-- The chunk-id list of the target competition type (lines 495-499):
empty unless the resolved type is truthy and present in the
competition-docs dict. -/
def searchCompDocs (s : Settings) (st : RAGState) (query : Txt)
    (competitionType0 : Option Txt) : List Txt :=
  match searchCompType s query competitionType0 with
  | some c => if c ≠ [] then (alookup st.competitionDocs c).getD [] else []
  | none => []

/-- Both scoring loops of `search`, producing the insertion-ordered
`doc_scores` dict. -/
def searchDocScoresE (o : Oracles) (f : ScoreFn) (s : Settings) (st : RAGState)
    (query : Txt) (competitionType0 : Option Txt) : Except Txt (List (Txt × ℚ)) := do
  let acc1 ← scoreCompDocsE f s st query (searchKeywords o s query)
    (searchCompType s query competitionType0) (searchCompDocs s st query competitionType0) []
  scoreKwDocsE f st query (searchKeywords o s query)
    (searchCompType s query competitionType0) (searchKeywords o s query) acc1

/-! ### Pure evaluation of the scoring loops under the engine's own scorer -/

/-- Pure form of `scoreCompDocsE` under `realScoreFn` (which never raises). -/
def scoreCompDocs (s : Settings) (st : RAGState) (query : Txt) (keywords : List Txt)
    (competitionType : Option Txt) : List Txt → List (Txt × ℚ) → List (Txt × ℚ)
  | [], acc => acc
  | docId :: rest, acc =>
    if (alookup acc docId).isSome then
      scoreCompDocs s st query keywords competitionType rest acc
    else
      match alookup st.documents docId with
      | none => scoreCompDocs s st query keywords competitionType rest acc
      | some doc =>
        scoreCompDocs s st query keywords competitionType rest
          (acc ++ [(docId,
            calcScore s query doc.content keywords doc.competition competitionType
              * s.competitionTypeBoostFactor)])

/-- Pure form of `scoreKwInnerE` under `realScoreFn`. -/
def scoreKwInner (s : Settings) (st : RAGState) (query : Txt) (keywords : List Txt)
    (competitionType : Option Txt) : List Txt → List (Txt × ℚ) → List (Txt × ℚ)
  | [], acc => acc
  | docId :: rest, acc =>
    if (alookup acc docId).isSome then
      scoreKwInner s st query keywords competitionType rest acc
    else
      match alookup st.documents docId with
      | none => scoreKwInner s st query keywords competitionType rest acc
      | some doc =>
        let sc := calcScore s query doc.content keywords doc.competition competitionType
        let sc := if sameTypeCond doc.competition competitionType then sc * (3/2) else sc
        scoreKwInner s st query keywords competitionType rest (acc ++ [(docId, sc)])

/-- Pure form of `scoreKwDocsE` under `realScoreFn`. -/
def scoreKwDocs (s : Settings) (st : RAGState) (query : Txt) (keywords : List Txt)
    (competitionType : Option Txt) : List Txt → List (Txt × ℚ) → List (Txt × ℚ)
  | [], acc => acc
  | kw :: rest, acc =>
    match alookup st.index kw with
    | none => scoreKwDocs s st query keywords competitionType rest acc
    | some ids =>
      scoreKwDocs s st query keywords competitionType rest
        (scoreKwInner s st query keywords competitionType ids acc)

/-- The score dict after the first (competition-type) loop of `search`,
under the engine's own scorer. -/
def searchCompScores (o : Oracles) (s : Settings) (st : RAGState) (query : Txt)
    (competitionType0 : Option Txt) : List (Txt × ℚ) :=
  scoreCompDocs s st query (searchKeywords o s query) (searchCompType s query competitionType0)
    (searchCompDocs s st query competitionType0) []

/-- The `doc_scores` dict computed by `search` under the engine's own
scorer. -/
def searchScores (o : Oracles) (s : Settings) (st : RAGState) (query : Txt)
    (competitionType0 : Option Txt) : List (Txt × ℚ) :=
  scoreKwDocs s st query (searchKeywords o s query) (searchCompType s query competitionType0)
    (searchKeywords o s query) (searchCompScores o s st query competitionType0)

/-! ### Result assembly: the two-stage threshold selection, final sort,
truncation, and the random fallback (lines 544-625) -/

/-- Python `self.documents.get(doc_id).copy()`: raises (`AttributeError` on
`None`) when the id has no stored record. -/
def getDocE (st : RAGState) (docId : Txt) : Except Txt Doc :=
  match alookup st.documents docId with
  | some d => .ok d
  | none => .error ('A' :: [])

/-- Build a result dict for a scored chunk (no `"id"` key is ever written). -/
def mkResult (d : Doc) (sc : ℚ) : SearchResult :=
  { doc := d, score := sc, isFallback := false, pyId := none }

/-- Stage collecting chunks whose score is at least the threshold
(lines 549-554). -/
def aboveThresholdE (st : RAGState) (thr : ℚ) :
    List (Txt × ℚ) → List SearchResult → Except Txt (List SearchResult)
  | [], acc => .ok acc
  | p :: rest, acc =>
    if thr ≤ p.2 then do
      let d ← getDocE st p.1
      aboveThresholdE st thr rest (acc ++ [mkResult d p.2])
    else aboveThresholdE st thr rest acc

/-- The relaxed second pass (lines 563-573): walk the sorted score list,
adding chunks scoring at least the halved threshold whose id is not among
the `d.get("id")` values of the above-threshold results (all `None`, so the
test never rejects), stopping once `len(above) + len(relaxed) >= top_n`. -/
def relaxedE (st : RAGState) (relThr : ℚ) (above : List SearchResult) (topN : Nat) :
    List (Txt × ℚ) → List SearchResult → Except Txt (List SearchResult)
  | [], acc => .ok acc
  | p :: rest, acc =>
    if relThr ≤ p.2 ∧ some p.1 ∉ above.map SearchResult.pyId then do
      let d ← getDocE st p.1
      let acc' := acc ++ [mkResult d p.2]
      if topN ≤ above.length + acc'.length then .ok acc'
      else relaxedE st relThr above topN rest acc'
    else relaxedE st relThr above topN rest acc

/-- The third stage (lines 578-590): append remaining sorted chunks with
score floored at 0.01, skipping ids found among the pre-computed
`d.get("id")` values of the current results (again all `None`), stopping at
`top_n` results. -/
def thirdStageE (st : RAGState) (topN : Nat) (existingIds : List (Option Txt)) :
    List (Txt × ℚ) → List SearchResult → Except Txt (List SearchResult)
  | [], acc => .ok acc
  | p :: rest, acc =>
    if some p.1 ∉ existingIds then do
      let d ← getDocE st p.1
      let acc' := acc ++ [mkResult d (max p.2 (1/100))]
      if topN ≤ acc'.length then .ok acc'
      else thirdStageE st topN existingIds rest acc'
    else thirdStageE st topN existingIds rest acc

/-- The random fallback (lines 607-617): draw `min(top_n, len(documents))`
ids uniformly (with replacement) from the document keys and return their
records with score 0.01 and `is_fallback = True`. -/
def fallbackDrawE (o : Oracles) (st : RAGState) (allDocs : List Txt) :
    List Nat → List SearchResult → Except Txt (List SearchResult)
  | [], acc => .ok acc
  | i :: rest, acc =>
    match alookup st.documents (allDocs.getD (o.randChoice i % allDocs.length) []) with
    | some d =>
      fallbackDrawE o st allDocs rest
        (acc ++ [{ doc := d, score := 1/100, isFallback := true, pyId := none }])
    | none => .error ('A' :: [])

/-- The random-fallback stage of `search`. -/
def fallbackE (o : Oracles) (st : RAGState) (topN : Nat) :
    Except Txt (List SearchResult) :=
  fallbackDrawE o st (st.documents.map (fun p => p.1))
    (List.range (min topN (st.documents.map (fun p => p.1)).length)) []

/-- Final steps of `search` (lines 600-625): stable sort by descending
score, truncation to `top_n`, and the random fallback when the result list
is empty. -/
def finalizeE (o : Oracles) (st : RAGState) (topN : Nat)
    (results : List SearchResult) : Except Txt (List SearchResult) :=
  let final := (List.insertionSort resGE results).take topN
  if final.isEmpty then fallbackE o st topN else pure final

/-- The middle stage of result assembly (lines 558-593): when fewer than
`top_n` results passed the threshold, run the relaxed pass and, if still
short of `top_n` with more scored chunks available, the floored third pass;
otherwise truncate the above-threshold results to `top_n`. -/
def middleStageE (st : RAGState) (topN : Nat) (thr : ℚ)
    (sorted : List (Txt × ℚ)) (above : List SearchResult) :
    Except Txt (List SearchResult) :=
  if above.length < topN then do
    let relaxed ← relaxedE st (thr / 2) above topN sorted []
    if (above ++ relaxed).length < topN ∧ (above ++ relaxed).length < sorted.length then
      thirdStageE st topN ((above ++ relaxed).map SearchResult.pyId) sorted (above ++ relaxed)
    else pure (above ++ relaxed)
  else pure (above.take topN)

/-- Result assembly from the sorted score list (lines 544-625): threshold
stage, optional relaxed and third stages, then `finalizeE`. -/
def assembleE (o : Oracles) (st : RAGState) (topN : Nat) (thr : ℚ)
    (sorted : List (Txt × ℚ)) : Except Txt (List SearchResult) := do
  let above ← aboveThresholdE st thr sorted []
  let results ← middleStageE st topN thr sorted above
  finalizeE o st topN results

/-- The body of `SimpleRAG.search` (everything inside the `try`),
parameterized by the scorer so that a raising scorer is representable. -/
def searchE (o : Oracles) (f : ScoreFn) (s : Settings) (st : RAGState) (query : Txt)
    (competitionType0 : Option Txt) (topN : Nat) (scoreThreshold0 : Option ℚ) :
    Except Txt (List SearchResult) := do
  let scores ← searchDocScoresE o f s st query competitionType0
  assembleE o st topN (scoreThreshold0.getD s.scoreThreshold)
    (List.insertionSort pairGE scores)

/-- The `try/except` wrapper of `SimpleRAG.search`: any error inside the
body degrades to the empty list. -/
def searchWith (o : Oracles) (f : ScoreFn) (s : Settings) (st : RAGState) (query : Txt)
    (competitionType0 : Option Txt) (topN : Nat) (scoreThreshold0 : Option ℚ) :
    List SearchResult :=
  match searchE o f s st query competitionType0 topN scoreThreshold0 with
  | .ok r => r
  | .error _ => []

/-- `SimpleRAG.search`, with the engine's own scorer. -/
def search (o : Oracles) (s : Settings) (st : RAGState) (query : Txt)
    (competitionType0 : Option Txt) (topN : Nat) (scoreThreshold0 : Option ℚ) :
    List SearchResult :=
  searchWith o (realScoreFn s) s st query competitionType0 topN scoreThreshold0

/-! ### Structured knowledge base: `structured_kb.py` -/

/-- `StructuredCompetitionKB._build_competition_aliases` (alias → canonical
competition name, in source order). -/
def defaultCompetitionAliases : List (Txt × Txt) :=
  [("泰迪杯", "泰迪杯数据挖掘挑战赛"),
   ("3D编程", "3D编程模型创新设计专项赛"),
   ("3D创新", "3D编程模型创新设计专项赛"),
   ("编程创作", "编程创作与信息学专项赛"),
   ("信息学", "编程创作与信息学专项赛"),
   ("机器人工程", "机器人工程设计专项赛"),
   ("极地资源", "极地资源勘探专项赛"),
   ("极地勘探", "极地资源勘探专项赛"),
   ("竞技机器人", "竞技机器人专项赛"),
   ("开源鸿蒙", "开源鸿蒙机器人专项赛"),
   ("人工智能创新", "人工智能综合创新专项赛"),
   ("AI创新", "人工智能综合创新专项赛"),
   ("三维程序", "三维程序创意设计专项赛"),
   ("生成式AI", "生成式人工智能应用专项赛"),
   ("AIGC", "生成式人工智能应用专项赛"),
   ("太空电梯", "太空电梯工程设计专项赛"),
   ("智能机器人", "太空探索智能机器人专项赛"),
   ("太空探索", "太空探索智能机器人专项赛"),
   ("虚拟仿真", "虚拟仿真平台创新设计专项赛"),
   ("数据采集", "智能数据采集装置设计专项赛"),
   ("智能芯片", "智能芯片与计算思维专项赛"),
   ("计算思维", "智能芯片与计算思维专项赛"),
   ("未来校园", "未来校园智能应用专项赛")].map (fun p => (p.1.toList, p.2.toList))

/-- `StructuredCompetitionKB._build_info_type_map` (information type →
keyword list). -/
def defaultInfoTypeMap : List (Txt × List Txt) :=
  [("报名时间", ["报名时间", "报名日期", "注册时间", "注册日期", "报名截止",
      "何时报名", "什么时候报名", "报名信息"]),
   ("评分标准", ["评分标准", "评分规则", "评价标准", "评判标准", "评判规则",
      "如何评分", "打分标准", "评分依据", "成绩评定"]),
   ("参赛要求", ["参赛要求", "参赛条件", "参赛资格", "必备条件", "需要具备",
      "参赛选手", "参赛对象", "面向对象", "参赛者"]),
   ("竞赛简介", ["竞赛简介", "比赛简介", "竞赛介绍", "比赛介绍", "竞赛概述",
      "赛事简介", "什么比赛", "竞赛背景", "比赛信息"]),
   ("提交材料", ["提交材料", "提交内容", "作品要求", "提交要求", "作品形式",
      "提交形式", "提交什么", "需要提交", "最终提交"]),
   ("奖项设置", ["奖项设置", "奖励设置", "奖项内容", "有什么奖", "比赛奖金",
      "奖励方式", "奖励内容", "获奖奖励", "奖励标准"]),
   ("赛程安排", ["赛程安排", "比赛流程", "竞赛阶段", "竞赛流程", "比赛日程",
      "竞赛进程", "赛事安排", "比赛时间", "竞赛时间"]),
   ("联系方式", ["联系方式", "联系人", "咨询方式", "联系电话", "联系邮箱",
      "联系微信", "比赛咨询", "赛事咨询"])
  ].map (fun p => (p.1.toList, p.2.map String.toList))

/-- The state of `StructuredCompetitionKB`: the structured store
(competition → information type → answer), the alias table, the
information-type vocabulary, and the per-competition keyword lists that
`_load_competition_keywords` derives with `jieba.cut`. -/
structure StructuredKB where
  kb : List (Txt × List (Txt × Txt))
  competitionAliases : List (Txt × Txt)
  infoTypes : List (Txt × List Txt)
  competitionKeywords : List (Txt × List Txt)

/-- `StructuredCompetitionKB._load_competition_keywords`: for every stored
competition name, the multi-character words of its `jieba.cut`
segmentation. -/
def loadCompetitionKeywords (o : Oracles) (kb : List (Txt × List (Txt × Txt))) :
    List (Txt × List Txt) :=
  kb.map (fun p => (p.1, (o.jiebaCut p.1).filter (fun w => 1 < w.length)))

/-- Construct a `StructuredKB` as `__init__` does from a built store. -/
def mkStructuredKB (o : Oracles) (kb : List (Txt × List (Txt × Txt))) : StructuredKB :=
  { kb := kb, competitionAliases := defaultCompetitionAliases,
    infoTypes := defaultInfoTypeMap, competitionKeywords := loadCompetitionKeywords o kb }

/-- The stored answer for an exact (competition, information type) pair. -/
def kbStored (k : StructuredKB) (c i : Txt) : Option Txt :=
  (alookup k.kb c).bind (fun m => alookup m i)

/-- The result dict of `StructuredCompetitionKB.query`:
`{answer, confidence, source, competition_type, info_type}`. -/
structure KBAnswer where
  answer : Txt
  confidence : ℚ
  source : Txt
  competitionType : Txt
  infoType : Txt
deriving DecidableEq

/-- `StructuredCompetitionKB.query` (lines 254-277): `None` when either
argument is falsy or the exact pair is absent; otherwise the stored answer
with confidence 1.0. -/
def kbQuery (k : StructuredKB) (competitionType infoType : Option Txt) :
    Option KBAnswer :=
  if !optTruthy competitionType || !optTruthy infoType then none
  else
    match competitionType, infoType with
    | some c, some i =>
      match kbStored k c i with
      | some a =>
        some { answer := a, confidence := 1, source := c ++ '-' :: i,
               competitionType := c, infoType := i }
      | none => none
    | _, _ => none

/-- Sort key order for keyword matches: descending match length (Python
`matches.sort(key=lambda x: x[1], reverse=True)`, stable). -/
def lenGE (a b : Txt × Nat) : Prop := b.2 ≤ a.2

instance : DecidableRel lenGE := fun a b => inferInstanceAs (Decidable (b.2 ≤ a.2))

instance : IsTotal (Txt × Nat) lenGE := ⟨fun a b => le_total b.2 a.2⟩

instance : IsTrans (Txt × Nat) lenGE := ⟨fun _ _ _ h1 h2 => le_trans h2 h1⟩

/-- `StructuredCompetitionKB.get_competition_type` (lines 212-236): direct
name match, then alias match, then the longest keyword match. -/
def getCompetitionType (k : StructuredKB) (question : Txt) : Option Txt :=
  match (k.kb.map (fun p => p.1)).find? (fun c => pyContains question c) with
  | some c => some c
  | none =>
    match k.competitionAliases.find?
        (fun p => pyContains question p.1 && (alookup k.kb p.2).isSome) with
    | some p => some p.2
    | none =>
      let ms := k.competitionKeywords.foldl
        (fun acc p =>
          acc ++ (p.2.filter (fun kw => pyContains question kw)).map
            (fun kw => (p.1, kw.length))) []
      match List.insertionSort lenGE ms with
      | [] => none
      | m :: _ => some m.1

/-- `StructuredCompetitionKB.get_info_type` (lines 238-252): the information
type with the longest matching vocabulary keyword. -/
def getInfoType (k : StructuredKB) (question : Txt) : Option Txt :=
  let ms := k.infoTypes.foldl
    (fun acc p =>
      acc ++ (p.2.filter (fun kw => pyContains question kw)).map
        (fun kw => (p.1, kw.length))) []
  match List.insertionSort lenGE ms with
  | [] => none
  | m :: _ => some m.1

/-! ### The router: `query_router.py` -/

/-- `QueryRouter.classify_question` (lines 75-102): competition type from the
structured store, information type from the structured vocabulary with the
regex pattern table (an external regex engine, the oracle `patternMatch`) as
fallback; a falsy structured answer is kept when the patterns also fail. -/
def classifyQuestion (o : Oracles) (k : StructuredKB) (question : Txt) :
    Option Txt × Option Txt :=
  let ct := getCompetitionType k question
  let it0 := getInfoType k question
  let it :=
    if optTruthy it0 then it0
    else
      match o.patternMatch question with
      | some t => some t
      | none => it0
  (ct, it)

/-- Outcome of `QueryRouter.route_query`: either the structured store's
answer returned immediately, or the semantic engine's answer (the semantic
engine is external to the core, so its answer type is abstract). -/
inductive RouteResult (α : Type) where
  | structured (r : KBAnswer)
  | semantic (a : α)
deriving DecidableEq

/-- `QueryRouter.route_query` (lines 104-165): classify; when both types are
truthy, query the structured store and return its answer immediately when
its confidence exceeds 0.7; otherwise delegate to the semantic engine
(modelled by the oracle `sem`).  Wall-clock `process_time` is not part of
the model. -/
def routeQuery {α : Type} (o : Oracles) (sem : Txt → α) (k : StructuredKB)
    (question : Txt) : RouteResult α :=
  let c := classifyQuestion o k question
  if optTruthy c.1 ∧ optTruthy c.2 then
    match kbQuery k c.1 c.2 with
    | some r => if 7/10 < r.confidence then .structured r else .semantic (sem question)
    | none => .semantic (sem question)
  else .semantic (sem question)

/-! ### Index build: `SimpleRAG._build_index` and `_split_text`
(lines 165-241, 421-453) -/

/-- `SimpleRAG._split_text`: accumulate non-blank paragraphs into chunks of
at most `chunk_size` characters, seeding each new chunk with the last
`chunk_overlap // 10` whitespace words of the previous one (all words when
that quotient is zero, mirroring Python's `words[-0:]`). -/
def splitTextLoop (s : Settings) : List Txt → List Txt → Txt → List Txt
  | [], chunks, cur => if cur = [] then chunks else chunks ++ [cur]
  | para :: rest, chunks, cur =>
    if pyStrip para = [] then splitTextLoop s rest chunks cur
    else if cur.length + para.length ≤ s.chunkSize then
      splitTextLoop s rest chunks (cur ++ para ++ ['\n'])
    else if cur ≠ [] then
      let words := pySplitWs cur
      let k := s.chunkOverlap / 10
      if k < words.length then
        let overlapText := joinSpace (if k = 0 then words else words.drop (words.length - k))
        splitTextLoop s rest (chunks ++ [cur]) (overlapText ++ '\n' :: para ++ ['\n'])
      else
        splitTextLoop s rest (chunks ++ [cur]) (para ++ ['\n'])
    else splitTextLoop s rest chunks (para ++ ['\n'])

/-- `SimpleRAG._split_text` (lines 421-453). -/
def splitText (s : Settings) (text : Txt) : List Txt :=
  splitTextLoop s (splitOnNl text) [] []

/-- One input file as delivered by the external PDF extractor: file name and
the extracted text of each page. -/
structure PdfFile where
  fileName : Txt
  pages : List Txt

/-- Index one chunk: assign the next id, store the record, append the id to
every extracted keyword's posting list and to the competition index. -/
def buildChunk (o : Oracles) (s : Settings) (fileName : Txt) (compType : Option Txt)
    (pageNum : Nat) (acc : Nat × RAGState) (chunk : Txt) : Nat × RAGState :=
  if pyStrip chunk = [] then acc
  else
    let docId := acc.1 + 1
    let key := ("doc_".toList) ++ natToTxt docId
    let doc : Doc := { content := chunk, source := fileName, page := pageNum + 1,
                       competition := compType }
    let keywords := extractKeywords o s chunk (some s.maxKeywordsPerChunk) false
    let index' := keywords.foldl (fun ix kw => dictAppend ix kw key) acc.2.index
    let compDocs' :=
      match compType with
      | some c => if c ≠ [] then dictAppend acc.2.competitionDocs c key
                  else acc.2.competitionDocs
      | none => acc.2.competitionDocs
    (docId, { index := index', documents := acc.2.documents ++ [(key, doc)],
              competitionDocs := compDocs' })

/-- Index one page: skip blank pages, split the text and index every
non-blank chunk. -/
def buildPage (o : Oracles) (s : Settings) (fileName : Txt) (compType : Option Txt)
    (acc : Nat × RAGState) (pageNum : Nat) (text : Txt) : Nat × RAGState :=
  if pyStrip text = [] then acc
  else (splitText s text).foldl (buildChunk o s fileName compType pageNum) acc

/-- Index one file: detect its competition type from the file name and index
every page. -/
def buildFile (o : Oracles) (s : Settings) (acc : Nat × RAGState) (f : PdfFile) :
    Nat × RAGState :=
  let compType := detectCompetitionType s f.fileName
  (f.pages.enum.foldl (fun a p => buildPage o s f.fileName compType a p.1 p.2) acc)

/-- `SimpleRAG._build_index` run over an already-extracted document
sequence: the previous in-memory state is discarded (the source clears
`self.index`, `self.documents`, `self.competition_docs` first) and every
file is indexed in order. -/
def buildIndexFrom (_prev : RAGState) (o : Oracles) (s : Settings)
    (files : List PdfFile) : RAGState :=
  (files.foldl (buildFile o s) (0, { index := [], documents := [], competitionDocs := [] })).2

/-! ### Concrete fixtures used by the witness theorems -/

deriving instance DecidableEq for Except

/-- Trivial oracles: a tokenizer that returns nothing (forcing the
whitespace fallback of `search`), no domain-term iteration, no regex hits,
and a constant random stream. -/
def wOracles : Oracles :=
  { jiebaPos := fun _ => [], jiebaCut := fun _ => [], termSetOrder := [],
    patternMatch := fun _ => none, randChoice := fun _ => 0 }

/-- Minimal settings for concrete evaluation. -/
def wSettings : Settings :=
  { criticalPhrasesScoring := [], competitionTypes := [], competitionKeywords := [],
    competitionTerms := [], stopwords := [] }

/-- A chunk of competition "c". -/
def wDoc1 : Doc :=
  { content := "abc c x".toList, source := "f".toList, page := 1,
    competition := some ("c".toList) }

/-- A second chunk of competition "c", reachable only via the index. -/
def wDoc2 : Doc :=
  { content := "xyz c".toList, source := "f".toList, page := 1,
    competition := some ("c".toList) }

/-- A store with one competition-indexed chunk and one keyword-indexed
chunk. -/
def wState : RAGState :=
  { index := [("zz".toList, ["doc_2".toList])],
    documents := [("doc_1".toList, wDoc1), ("doc_2".toList, wDoc2)],
    competitionDocs := [("c".toList, ["doc_1".toList])] }

/-- A store holding one chunk that no query keyword can reach. -/
def wState7 : RAGState :=
  { index := [], documents := [("doc_1".toList, wDoc1)], competitionDocs := [] }

/-- The empty store. -/
def wEmptyState : RAGState := { index := [], documents := [], competitionDocs := [] }

/-- A scorer that raises on every call. -/
def wFailScore : ScoreFn := fun _ _ _ _ _ => .error ('e' :: [])

/-- A structured store holding one competition with one information type. -/
def wKB : StructuredKB :=
  { kb := [("泰迪杯数据挖掘挑战赛".toList, [("报名时间".toList, "4月".toList)])],
    competitionAliases := defaultCompetitionAliases,
    infoTypes := defaultInfoTypeMap,
    competitionKeywords := [] }

/-! ## Lemmas about the association-list dictionary model -/

theorem alookup_append_of_some {β : Type} {l1 : List (Txt × β)} {k : Txt} {v : β}
    (l2 : List (Txt × β)) (h : alookup l1 k = some v) : alookup (l1 ++ l2) k = some v := by
  induction l1 with
  | nil => simp [alookup] at h
  | cons p t ih =>
    by_cases hp : p.1 = k
    · simp only [alookup, if_pos hp] at h
      simp [alookup, hp, h]
    · simp only [alookup, if_neg hp] at h
      simpa [alookup, hp] using ih h

theorem alookup_append_of_none {β : Type} {l1 : List (Txt × β)} {k : Txt}
    (l2 : List (Txt × β)) (h : alookup l1 k = none) :
    alookup (l1 ++ l2) k = alookup l2 k := by
  induction l1 with
  | nil => simp
  | cons p t ih =>
    by_cases hp : p.1 = k
    · simp [alookup, hp] at h
    · simp only [alookup, if_neg hp] at h
      simpa [alookup, hp] using ih h

theorem alookup_mem {β : Type} {l : List (Txt × β)} {k : Txt} {v : β}
    (h : alookup l k = some v) : (k, v) ∈ l := by
  induction l with
  | nil => simp [alookup] at h
  | cons p t ih =>
    rcases p with ⟨a, b⟩
    by_cases hp : a = k
    · simp only [alookup, if_pos hp] at h
      have hb : b = v := by injection h
      simp [hp, hb]
    · simp only [alookup, if_neg hp] at h
      exact List.mem_cons_of_mem _ (ih h)

theorem alookup_isSome_of_mem_keys {β : Type} {l : List (Txt × β)} {k : Txt}
    (h : k ∈ l.map (fun p => p.1)) : (alookup l k).isSome := by
  induction l with
  | nil => simp at h
  | cons p t ih =>
    by_cases hp : p.1 = k
    · simp [alookup, hp]
    · simp only [List.map_cons, List.mem_cons] at h
      rcases h with h | h
      · exact absurd h.symm hp
      · simpa [alookup, hp] using ih h

/-! ## Claim C8 -/

/-- C8: running the index build twice over the identical sequence of input
documents (with the same tokenizer oracle, i.e. deterministic term
extraction) produces identical term-to-posting-list mappings and identical
chunk records, whatever in-memory state each run starts from — the build
clears the previous state and is a pure fold over its input. -/
theorem c8_build_deterministic (prev1 prev2 : RAGState) (o : Oracles) (s : Settings)
    (files : List PdfFile) :
    (buildIndexFrom prev1 o s files).index = (buildIndexFrom prev2 o s files).index ∧
    (buildIndexFrom prev1 o s files).documents = (buildIndexFrom prev2 o s files).documents :=
  ⟨rfl, rfl⟩

/-! ## Claim C9 -/

/-- C9: `StructuredCompetitionKB.query` returns exactly one of: the stored
answer for the exact (competition type, information type) pair with
confidence exactly 1.0, or `None` — in particular `None` whenever either
argument is missing/falsy or the pair is not stored; it never returns a
partial or ranked answer. -/
theorem c9_structured_query_exact_or_absent (k : StructuredKB) (ct it : Option Txt) :
    kbQuery k ct it = none ∨
    ∃ c i a, ct = some c ∧ it = some i ∧ kbStored k c i = some a ∧
      kbQuery k ct it = some { answer := a, confidence := 1, source := c ++ '-' :: i,
                               competitionType := c, infoType := i } := by
  unfold kbQuery
  by_cases h : (!optTruthy ct || !optTruthy it) = true
  · rw [if_pos h]
    exact Or.inl rfl
  · rw [if_neg h]
    rcases ct with _ | c
    · exact Or.inl rfl
    · rcases it with _ | i
      · exact Or.inl rfl
      · cases hst : kbStored k c i with
        | none => simp [hst]
        | some a =>
          refine Or.inr ⟨c, i, a, rfl, rfl, hst, ?_⟩
          simp [hst]

/-! ## Claim C1 -/

/-- C1: whenever classification resolves both a (truthy) competition type
and information type and the structured store holds a record for that exact
pair, `route_query` returns that record's stored answer with confidence 1.0
immediately; the retrieval path is never consulted — the semantic oracle
`sem` is universally quantified and absent from the result. -/
theorem c1_route_prefers_structured {α : Type} (o : Oracles) (sem : Txt → α)
    (k : StructuredKB) (q ct it ans : Txt)
    (hcl : classifyQuestion o k q = (some ct, some it))
    (hct : ct ≠ []) (hit : it ≠ [])
    (hkb : kbStored k ct it = some ans) :
    routeQuery o sem k q =
      .structured { answer := ans, confidence := 1, source := ct ++ '-' :: it,
                    competitionType := ct, infoType := it } := by
  unfold routeQuery
  rw [hcl]
  have hc1 : optTruthy (some ct) = true := by simpa [optTruthy] using hct
  have hc2 : optTruthy (some it) = true := by simpa [optTruthy] using hit
  simp only [hc1, hc2, and_self, if_true]
  unfold kbQuery
  simp only [hc1, hc2, Bool.not_true, Bool.or_self, Bool.false_eq_true, if_false, hkb]
  norm_num

/-! ## Claim C5 -/

theorem min_one_add_eq (x : ℚ) : min (1 + x) 2 = 1 + min x 1 := by
  rw [show (2 : ℚ) = 1 + 1 by norm_num, min_add_add_left]

theorem kwWeight_eq_spec (s : Settings) (d kw : Txt) :
    kwWeight s d kw = specTermContribution s d kw := by
  unfold kwWeight specTermContribution lengthFactor frequencyFactor positionFactor termBonus
  simp only [min_one_add_eq]

theorem keywordStage_foldl (s : Settings) (d : Txt) (ks : List Txt) :
    ∀ (a : ℚ) (fs : Finset Txt),
      ks.foldl
        (fun acc kw =>
          if pyContains d (pyLower kw) then (acc.1 + kwWeight s d kw, insert kw acc.2)
          else acc) (a, fs)
      = (a + ((ks.filter (fun kw => pyContains d (pyLower kw))).map (kwWeight s d)).sum,
         fs ∪ (ks.filter (fun kw => pyContains d (pyLower kw))).toFinset) := by
  induction ks with
  | nil => intro a fs; simp
  | cons kw t ih =>
    intro a fs
    by_cases h : pyContains d (pyLower kw) = true
    · simp only [List.foldl_cons, List.filter_cons, h, if_true, ih, List.map_cons,
        List.sum_cons, List.toFinset_cons, Prod.mk.injEq]
      exact ⟨by ring, by rw [Finset.insert_union, Finset.union_insert]⟩
    · simp only [List.foldl_cons, List.filter_cons, h, if_false, ih,
        Bool.false_eq_true]

theorem keywordCoverage_eq_spec (s : Settings) (d : Txt) (ks : List Txt) :
    keywordCoverageScore s d ks = keywordCoverageScoreSpec s d ks := by
  unfold keywordCoverageScore keywordCoverageScoreSpec keywordStage
  rw [keywordStage_foldl]
  have hmap : (ks.filter (fun kw => pyContains d (pyLower kw))).map (kwWeight s d)
      = (ks.filter (fun kw => pyContains d (pyLower kw))).map (specTermContribution s d) :=
    List.map_congr_left (fun kw _ => kwWeight_eq_spec s d kw)
  by_cases hks : ks.isEmpty
  · have : ks = [] := List.isEmpty_iff.mp hks
    subst this
    simp
  · simp only [hks, Bool.false_eq_true, if_false, zero_add, Finset.empty_union, hmap,
      List.card_toFinset]

/-- C5: in the scorer's keyword-match stage, every query term found
(case-insensitive substring) in the chunk contributes `base_weight *
length_factor * frequency_factor * position_factor * term_bonus` with
`length_factor = 1 + min(len/5, 2)`, `frequency_factor = 1 +
min(occurrences/10, 1)` (capped at 2), `position_factor` 1.5 / 1.25 / 1.0
by first-occurrence position, `term_bonus` 1.5 for curated domain terms;
the accumulated score is then multiplied by `0.5 + coverage` exactly when
positive — the source stage equals the formula stated by the spec. -/
theorem c5_keyword_stage_formula (s : Settings) (docLower : Txt) (keywords : List Txt) :
    keywordCoverageScore s docLower keywords = keywordCoverageScoreSpec s docLower keywords :=
  keywordCoverage_eq_spec s docLower keywords

/-! ## Claim C6 -/

theorem lengthFactor_pos (kw : Txt) : 0 < lengthFactor kw := by
  unfold lengthFactor
  have h0 : (0:ℚ) ≤ min ((kw.length : ℚ) / 5) 2 := le_min (by positivity) (by norm_num)
  linarith

theorem frequencyFactor_pos (dl kwl : Txt) : 0 < frequencyFactor dl kwl := by
  unfold frequencyFactor
  exact lt_min (by positivity) (by norm_num)

theorem positionFactor_pos (dl kwl : Txt) : 0 < positionFactor dl kwl := by
  unfold positionFactor
  cases strFind dl kwl with
  | none => norm_num
  | some i =>
    dsimp only
    split_ifs <;> norm_num

theorem termBonus_pos (s : Settings) (kw : Txt) : 0 < termBonus s kw := by
  unfold termBonus
  split_ifs <;> norm_num

theorem kwWeight_pos (s : Settings) (hb : 0 < s.keywordMatchBaseWeight) (d kw : Txt) :
    0 < kwWeight s d kw :=
  mul_pos (mul_pos (mul_pos (mul_pos hb (lengthFactor_pos kw))
    (frequencyFactor_pos d (pyLower kw))) (positionFactor_pos d (pyLower kw)))
    (termBonus_pos s kw)

theorem keywordCoverage_pos (s : Settings) (hb : 0 < s.keywordMatchBaseWeight)
    (d : Txt) (ks : List Txt) (kw : Txt) (hkw : kw ∈ ks)
    (hc : pyContains d (pyLower kw) = true) :
    0 < keywordCoverageScore s d ks := by
  have hmem : kwWeight s d kw
      ∈ (ks.filter (fun k => pyContains d (pyLower k))).map (kwWeight s d) :=
    List.mem_map_of_mem _ (List.mem_filter.mpr ⟨hkw, hc⟩)
  have hnn : ∀ x ∈ (ks.filter (fun k => pyContains d (pyLower k))).map (kwWeight s d),
      0 ≤ x := by
    intro x hx
    obtain ⟨k, _, rfl⟩ := List.mem_map.mp hx
    exact le_of_lt (kwWeight_pos s hb d k)
  have hsum : 0 < ((ks.filter (fun k => pyContains d (pyLower k))).map (kwWeight s d)).sum :=
    lt_of_lt_of_le (kwWeight_pos s hb d kw) (List.single_le_sum hnn _ hmem)
  have hne : ks.isEmpty = false := by
    cases ks
    · simp at hkw
    · rfl
  unfold keywordCoverageScore keywordStage
  rw [keywordStage_foldl]
  dsimp only
  simp only [hne, Bool.false_eq_true, if_false, zero_add, Finset.empty_union]
  rw [if_pos hsum]
  refine mul_pos hsum ?_
  have hcov : (0:ℚ) ≤ (((ks.filter (fun k => pyContains d (pyLower k))).toFinset.card : ℚ))
      / (ks.length : ℚ) := by positivity
  linarith

theorem foldl_add_nonneg {α : Type} (cond : α → Bool) (g : α → ℚ) :
    ∀ (l : List α) (a : ℚ), (∀ x ∈ l, 0 ≤ g x) → 0 ≤ a →
      0 ≤ l.foldl (fun acc x => if cond x then acc + g x else acc) a := by
  intro l
  induction l with
  | nil => intro a _ ha; simpa
  | cons x t ih =>
    intro a hg ha
    simp only [List.foldl_cons]
    by_cases hx : cond x = true
    · rw [if_pos hx]
      exact ih _ (fun y hy => hg y (List.mem_cons_of_mem _ hy))
        (add_nonneg ha (hg x (List.mem_cons_self _ _)))
    · rw [if_neg hx]
      exact ih _ (fun y hy => hg y (List.mem_cons_of_mem _ hy)) ha

theorem directMatch_nonneg (s : Settings) (hd : 0 ≤ s.directQueryMatchBonus)
    (ql dl : Txt) : 0 ≤ directMatchBonusAmt s ql dl := by
  unfold directMatchBonusAmt
  split_ifs with h1 h2
  · positivity
  · refine foldl_add_nonneg _ _ _ _ (fun p _ => ?_) le_rfl
    have : (0:ℚ) ≤ 1/2 + 1/2 * (p.length : ℚ) / (ql.length : ℚ) := by positivity
    exact mul_nonneg hd this
  · exact le_rfl

theorem phraseBonus_nonneg (s : Settings)
    (hp : ∀ pb ∈ s.criticalPhrasesScoring, 0 ≤ pb.2) (ql dl : Txt) :
    0 ≤ phraseBonusAmt s ql dl := by
  unfold phraseBonusAmt
  refine foldl_add_nonneg _ _ _ _ (fun pb hpb => ?_) le_rfl
  have := hp pb hpb
  split_ifs <;> linarith

theorem compBoost_pos (s : Settings) (hcb : 0 < s.competitionTypeBoostFactor)
    (q : Txt) (dc ct : Option Txt) (x : ℚ) (hx : 0 < x) :
    0 < compBoostApply s q dc ct x := by
  unfold compBoostApply
  split_ifs with h1 h2
  · nlinarith
  · nlinarith
  · exact hx

theorem lengthAdjust_pos (dl : Txt) (x : ℚ) (hx : 0 < x) :
    0 < lengthAdjustApply dl x := by
  unfold lengthAdjustApply
  dsimp only
  set L : ℚ :=
    (if (pySplitWs dl).length < 20 then
      4/5 + 1/5 * (((pySplitWs dl).length : ℚ) / 20)
    else if 200 < (pySplitWs dl).length then
      1 - 1/5 * min ((((pySplitWs dl).length : ℚ) - 200) / 300) 1
    else 1) with hL
  have hlf : (0:ℚ) < L := by
    rw [hL]
    split_ifs with h1 h2
    · positivity
    · have := min_le_right ((((pySplitWs dl).length : ℚ) - 200) / 300) 1
      linarith
    · norm_num
  split_ifs with h
  · exact mul_pos hx hlf
  · exact hx

theorem calcScore_pos (s : Settings)
    (hb : 0 < s.keywordMatchBaseWeight) (hd : 0 ≤ s.directQueryMatchBonus)
    (hph : ∀ pb ∈ s.criticalPhrasesScoring, 0 ≤ pb.2)
    (hcb : 0 < s.competitionTypeBoostFactor)
    (query docText : Txt) (keywords : List Txt) (dc ct : Option Txt)
    (hdoc : docText ≠ []) (kw : Txt) (hkw : kw ∈ keywords)
    (hc : pyContains (pyLower docText) (pyLower kw) = true) :
    0 < calcScore s query docText keywords dc ct := by
  unfold calcScore
  have hguard : ¬ (docText = [] ∨ (keywords = [] ∧ query = [])) := by
    rintro (h | ⟨h, _⟩)
    · exact hdoc h
    · subst h
      simp at hkw
  rw [if_neg hguard]
  apply lengthAdjust_pos
  apply compBoost_pos _ hcb
  unfold preBoostScore
  have h1 : 0 < keywordCoverageScore s (pyLower docText) keywords :=
    keywordCoverage_pos s hb _ keywords kw hkw hc
  have h2 := directMatch_nonneg s hd (pyLower query) (pyLower docText)
  have h3 := phraseBonus_nonneg s hph (pyLower query) (pyLower docText)
  linarith

theorem defaultCriticalPhrases_nonneg : ∀ pb ∈ defaultCriticalPhrases, 0 ≤ pb.2 := by
  with_unfolding_all decide

/-- C6 counterexample: the claim as stated is false at the empty chunk text.
Under Python's substring semantics (the code's own `in` test) the empty
term occurs in the empty chunk, the configured base weight 1 is positive,
yet the scorer's `if not doc_text` guard returns score 0, not a positive
score. -/
theorem c6_counterexample :
    (0:ℚ) < 1 ∧ ([] : Txt) ∈ [([] : Txt)] ∧
    pyContains (pyLower []) (pyLower ([] : Txt)) = true ∧
    ¬ 0 < calcScore { keywordMatchBaseWeight := 1 } [] [] [[]] none none := by
  refine ⟨by norm_num, by decide, by decide, ?_⟩
  have h : calcScore { keywordMatchBaseWeight := 1 } [] [] [[]] none none = 0 := by
    unfold calcScore
    simp
  rw [h]
  norm_num

/-- C6 (amended): for every non-empty chunk text C and every query whose
term list contains a term occurring (case-insensitively) in C, the score
computed by the scorer under the repository's default configuration — with
any positive `keyword_match_base_weight` — is strictly positive.  The
amendment adds "non-empty chunk text", forced by the counterexample
`C = ""`. -/
theorem c6_positive_score (b : ℚ) (hb : 0 < b) (query docText : Txt)
    (keywords : List Txt) (dc ct : Option Txt) (hdoc : docText ≠ [])
    (kw : Txt) (hkw : kw ∈ keywords)
    (hc : pyContains (pyLower docText) (pyLower kw) = true) :
    0 < calcScore { keywordMatchBaseWeight := b } query docText keywords dc ct :=
  calcScore_pos { keywordMatchBaseWeight := b } hb (by norm_num)
    defaultCriticalPhrases_nonneg (by norm_num) query docText keywords dc ct hdoc kw hkw hc

/-- Witness for C6 at a concrete input. -/
theorem c6_positive_score_witness :
    0 < calcScore { keywordMatchBaseWeight := 1 } ("q".toList) ("ab".toList)
      ["ab".toList] none none :=
  c6_positive_score 1 (by norm_num) ("q".toList) ("ab".toList) ["ab".toList] none none
    (by decide) ("ab".toList) (by decide) (by decide)

/-! ## Lemmas about the `Except` plumbing of the search pipeline -/

theorem except_bind_ok {α β : Type} {A : Except Txt α} {k : α → Except Txt β} {r : β}
    (h : A >>= k = .ok r) : ∃ a, A = .ok a ∧ k a = .ok r := by
  cases A with
  | error e => simp [Bind.bind, Except.bind] at h
  | ok a => exact ⟨a, rfl, by simpa [Bind.bind, Except.bind] using h⟩

theorem getD_mem_of_lt {l : List Txt} {n : Nat} (h : n < l.length) : l.getD n [] ∈ l := by
  induction l generalizing n with
  | nil => simp at h
  | cons x t ih =>
    cases n with
    | zero => simp [List.getD]
    | succ m =>
      simp only [List.getD_cons_succ]
      exact List.mem_cons_of_mem _ (ih (by simpa using h))

/-! ## Lemmas about the random fallback -/

theorem fallbackDrawE_props (o : Oracles) (st : RAGState) (allDocs : List Txt) :
    ∀ (idxs : List Nat) (acc out : List SearchResult),
      fallbackDrawE o st allDocs idxs acc = .ok out →
      out.length = acc.length + idxs.length ∧
      ∀ r ∈ out, r ∈ acc ∨ (r.score = 1/100 ∧ r.isFallback = true ∧
        ∃ p ∈ st.documents, r.doc = p.2) := by
  intro idxs
  induction idxs with
  | nil =>
    intro acc out h
    unfold fallbackDrawE at h
    injection h with h
    subst h
    exact ⟨rfl, fun r hr => Or.inl hr⟩
  | cons i rest ih =>
    intro acc out h
    unfold fallbackDrawE at h
    cases hlk : alookup st.documents (allDocs.getD (o.randChoice i % allDocs.length) []) with
    | none => rw [hlk] at h; simp at h
    | some d =>
      rw [hlk] at h
      obtain ⟨h1, h2⟩ := ih _ _ h
      constructor
      · rw [h1]
        simp
        omega
      · intro r hr
        rcases h2 r hr with hin | hp
        · rcases List.mem_append.mp hin with h' | h'
          · exact Or.inl h'
          · right
            simp only [List.mem_singleton] at h'
            subst h'
            exact ⟨rfl, rfl, ⟨_, alookup_mem hlk, rfl⟩⟩
        · exact Or.inr hp

theorem fallbackDrawE_total (o : Oracles) (st : RAGState) (hne : st.documents ≠ []) :
    ∀ (idxs : List Nat) (acc : List SearchResult),
      ∃ out, fallbackDrawE o st (st.documents.map (fun p => p.1)) idxs acc = .ok out := by
  intro idxs
  induction idxs with
  | nil => intro acc; exact ⟨acc, rfl⟩
  | cons i rest ih =>
    intro acc
    have hlen : 0 < (st.documents.map (fun p => p.1)).length := by
      simpa using List.length_pos.mpr hne
    have hkey : (st.documents.map (fun p => p.1)).getD
        (o.randChoice i % (st.documents.map (fun p => p.1)).length) []
        ∈ st.documents.map (fun p => p.1) :=
      getD_mem_of_lt (Nat.mod_lt _ hlen)
    obtain ⟨d, hd⟩ := Option.isSome_iff_exists.mp (alookup_isSome_of_mem_keys hkey)
    unfold fallbackDrawE
    rw [hd]
    exact ih _

theorem fallbackE_ok_props (o : Oracles) (st : RAGState) (topN : Nat)
    (out : List SearchResult) (h : fallbackE o st topN = .ok out) :
    out.length = min topN st.documents.length ∧
    ∀ r ∈ out, r.score = 1/100 ∧ r.isFallback = true ∧
      ∃ p ∈ st.documents, r.doc = p.2 := by
  unfold fallbackE at h
  obtain ⟨h1, h2⟩ := fallbackDrawE_props o st _ _ _ _ h
  constructor
  · rw [h1]
    simp
  · intro r hr
    rcases h2 r hr with hin | hp
    · simp at hin
    · exact hp

theorem fallbackE_ok_exists (o : Oracles) (st : RAGState) (topN : Nat)
    (hne : st.documents ≠ []) : ∃ out, fallbackE o st topN = .ok out :=
  fallbackDrawE_total o st hne _ []

/-! ## Lemmas about finalization and assembly -/

theorem finalizeE_ok_props (o : Oracles) (st : RAGState) (topN : Nat)
    (results r : List SearchResult) (h : finalizeE o st topN results = .ok r) :
    r.length ≤ topN ∧ List.Pairwise resGE r := by
  unfold finalizeE at h
  by_cases he : ((List.insertionSort resGE results).take topN).isEmpty
  · rw [if_pos he] at h
    obtain ⟨h1, h2⟩ := fallbackE_ok_props o st topN r h
    refine ⟨le_trans (le_of_eq h1) (min_le_left _ _), ?_⟩
    refine List.pairwise_of_forall_mem_list ?_
    intro a ha b hb
    show b.score ≤ a.score
    rw [(h2 a ha).1, (h2 b hb).1]
  · rw [if_neg he] at h
    have hr : r = (List.insertionSort resGE results).take topN := by
      simpa [pure, Except.pure] using h.symm
    subst hr
    constructor
    · rw [List.length_take]
      exact min_le_left _ _
    · exact List.Pairwise.sublist (List.take_sublist _ _)
        (List.sorted_insertionSort resGE results)

theorem assembleE_through_finalize (o : Oracles) (st : RAGState) (topN : Nat)
    (thr : ℚ) (sorted : List (Txt × ℚ)) (r : List SearchResult)
    (h : assembleE o st topN thr sorted = .ok r) :
    ∃ results, finalizeE o st topN results = .ok r := by
  unfold assembleE at h
  obtain ⟨above, _, h⟩ := except_bind_ok h
  obtain ⟨results, _, h⟩ := except_bind_ok h
  exact ⟨results, h⟩

theorem assembleE_ok_props (o : Oracles) (st : RAGState) (topN : Nat) (thr : ℚ)
    (sorted : List (Txt × ℚ)) (r : List SearchResult)
    (h : assembleE o st topN thr sorted = .ok r) :
    r.length ≤ topN ∧ List.Pairwise resGE r := by
  obtain ⟨results, hfin⟩ := assembleE_through_finalize o st topN thr sorted r h
  exact finalizeE_ok_props o st topN results r hfin

theorem searchWith_props (o : Oracles) (f : ScoreFn) (s : Settings) (st : RAGState)
    (q : Txt) (ct0 : Option Txt) (topN : Nat) (thr0 : Option ℚ) :
    (searchWith o f s st q ct0 topN thr0).length ≤ topN ∧
    List.Pairwise resGE (searchWith o f s st q ct0 topN thr0) := by
  unfold searchWith
  cases hE : searchE o f s st q ct0 topN thr0 with
  | error e => exact ⟨Nat.zero_le _, List.Pairwise.nil⟩
  | ok r =>
    unfold searchE at hE
    obtain ⟨scores, _, hE⟩ := except_bind_ok hE
    exact assembleE_ok_props o st topN _ _ r hE

/-! ## Claim C3 -/

/-- C3: for every query and every `top_n`, `search` returns at most `top_n`
results, and the returned list is ordered by score in non-increasing order
(`resGE a b` is `b.score ≤ a.score`). -/
theorem c3_topn_and_sorted (o : Oracles) (s : Settings) (st : RAGState)
    (q : Txt) (ct0 : Option Txt) (topN : Nat) (thr0 : Option ℚ) :
    (search o s st q ct0 topN thr0).length ≤ topN ∧
    List.Pairwise resGE (search o s st q ct0 topN thr0) :=
  searchWith_props o (realScoreFn s) s st q ct0 topN thr0

/-! ## Claim C2 -/

theorem relaxedE_scores (st : RAGState) (relThr : ℚ) (above : List SearchResult)
    (topN : Nat) :
    ∀ (sorted : List (Txt × ℚ)) (acc out : List SearchResult),
      relaxedE st relThr above topN sorted acc = .ok out →
      ∀ r ∈ out, r ∈ acc ∨ relThr ≤ r.score := by
  intro sorted
  induction sorted with
  | nil =>
    intro acc out h
    unfold relaxedE at h
    injection h with h
    subst h
    exact fun r hr => Or.inl hr
  | cons p rest ih =>
    intro acc out h
    unfold relaxedE at h
    by_cases hc : relThr ≤ p.2 ∧ some p.1 ∉ above.map SearchResult.pyId
    · rw [if_pos hc] at h
      obtain ⟨d, _, h⟩ := except_bind_ok h
      by_cases hlen : topN ≤ above.length + (acc ++ [mkResult d p.2]).length
      · rw [if_pos hlen] at h
        injection h with h
        subst h
        intro r hr
        rcases List.mem_append.mp hr with h' | h'
        · exact Or.inl h'
        · right
          simp only [List.mem_singleton] at h'
          subst h'
          exact hc.1
      · rw [if_neg hlen] at h
        intro r hr
        rcases ih _ _ h r hr with hin | hs
        · rcases List.mem_append.mp hin with h' | h'
          · exact Or.inl h'
          · right
            simp only [List.mem_singleton] at h'
            subst h'
            exact hc.1
        · exact Or.inr hs
    · rw [if_neg hc] at h
      exact ih _ _ h

/-- C2: with threshold `T`, when fewer than `top_n` chunks reached `T`
(the above-threshold stage produced `above` with `|above| < top_n`), every
result added by the relaxed second pass scores at least `T/2`, and the list
finally returned by `search` never holds more than `top_n` entries. -/
theorem c2_relaxed_pass (o : Oracles) (s : Settings) (st : RAGState) (q : Txt)
    (ct0 : Option Txt) (topN : Nat) (T : ℚ) (sorted : List (Txt × ℚ))
    (above rl : List SearchResult)
    (_hab : aboveThresholdE st T sorted [] = .ok above)
    (_hlt : above.length < topN)
    (hrel : relaxedE st (T/2) above topN sorted [] = .ok rl) :
    (∀ r ∈ rl, T/2 ≤ r.score) ∧
    (search o s st q ct0 topN (some T)).length ≤ topN := by
  constructor
  · intro r hr
    rcases relaxedE_scores st (T/2) above topN sorted [] rl hrel r hr with h | h
    · simp at h
    · exact h
  · exact (searchWith_props o (realScoreFn s) s st q ct0 topN (some T)).1

/-! ## Claim C4 -/

theorem scoreCompDocsE_empty_docs (f : ScoreFn) (s : Settings) (st : RAGState)
    (q : Txt) (kws : List Txt) (ct : Option Txt) (hd : st.documents = []) :
    ∀ (ids : List Txt) (acc : List (Txt × ℚ)),
      scoreCompDocsE f s st q kws ct ids acc = .ok acc := by
  intro ids
  induction ids with
  | nil => intro acc; rfl
  | cons i rest ih =>
    intro acc
    unfold scoreCompDocsE
    by_cases hi : (alookup acc i).isSome
    · rw [if_pos hi]
      exact ih acc
    · rw [if_neg hi, hd]
      exact ih acc

theorem scoreKwInnerE_empty_docs (f : ScoreFn) (st : RAGState) (q : Txt)
    (kws : List Txt) (ct : Option Txt) (hd : st.documents = []) :
    ∀ (ids : List Txt) (acc : List (Txt × ℚ)),
      scoreKwInnerE f st q kws ct ids acc = .ok acc := by
  intro ids
  induction ids with
  | nil => intro acc; rfl
  | cons i rest ih =>
    intro acc
    unfold scoreKwInnerE
    by_cases hi : (alookup acc i).isSome
    · rw [if_pos hi]
      exact ih acc
    · rw [if_neg hi, hd]
      exact ih acc

theorem scoreKwDocsE_empty_docs (f : ScoreFn) (st : RAGState) (q : Txt)
    (kws : List Txt) (ct : Option Txt) (hd : st.documents = []) :
    ∀ (l : List Txt) (acc : List (Txt × ℚ)),
      scoreKwDocsE f st q kws ct l acc = .ok acc := by
  intro l
  induction l with
  | nil => intro acc; rfl
  | cons kw rest ih =>
    intro acc
    unfold scoreKwDocsE
    cases hix : alookup st.index kw with
    | none => exact ih acc
    | some ids =>
      dsimp only
      rw [scoreKwInnerE_empty_docs f st q kws ct hd ids acc]
      simp only [Bind.bind, Except.bind]
      exact ih acc

theorem searchDocScoresE_empty_docs (o : Oracles) (f : ScoreFn) (s : Settings)
    (st : RAGState) (q : Txt) (ct0 : Option Txt) (hd : st.documents = []) :
    searchDocScoresE o f s st q ct0 = .ok [] := by
  unfold searchDocScoresE
  rw [scoreCompDocsE_empty_docs f s st q _ _ hd]
  simp only [Bind.bind, Except.bind]
  exact scoreKwDocsE_empty_docs f st q _ _ hd _ []

theorem finalizeE_nil (o : Oracles) (st : RAGState) (topN : Nat) :
    finalizeE o st topN [] = fallbackE o st topN := by
  unfold finalizeE
  rw [show List.insertionSort resGE ([] : List SearchResult) = [] from rfl,
    List.take_nil]
  rfl

theorem middleStageE_nil (st : RAGState) (topN : Nat) (thr : ℚ) :
    middleStageE st topN thr [] [] = .ok [] := by
  unfold middleStageE
  simp only [List.length_nil]
  by_cases htop : 0 < topN
  · rw [if_pos htop]
    rw [show relaxedE st (thr/2) [] topN [] [] = .ok [] from rfl]
    simp only [Bind.bind, Except.bind]
    simp only [List.append_nil, List.length_nil]
    rw [if_neg (by omega : ¬ ((0:Nat) < topN ∧ (0:Nat) < 0))]
    rfl
  · rw [if_neg htop]
    rw [List.take_nil]
    rfl

theorem assembleE_nil (o : Oracles) (st : RAGState) (topN : Nat) (thr : ℚ) :
    assembleE o st topN thr [] = fallbackE o st topN := by
  unfold assembleE
  rw [show aboveThresholdE st thr [] [] = .ok [] from rfl]
  simp only [Bind.bind, Except.bind]
  rw [middleStageE_nil st topN thr]
  exact finalizeE_nil o st topN

theorem searchWith_empty_docs (o : Oracles) (f : ScoreFn) (s : Settings)
    (st : RAGState) (q : Txt) (ct0 : Option Txt) (topN : Nat) (thr0 : Option ℚ)
    (hd : st.documents = []) :
    searchWith o f s st q ct0 topN thr0 = [] := by
  unfold searchWith searchE
  rw [searchDocScoresE_empty_docs o f s st q ct0 hd]
  simp only [Bind.bind, Except.bind]
  rw [show List.insertionSort pairGE ([] : List (Txt × ℚ)) = [] from rfl,
    assembleE_nil o st topN _]
  have hfb : fallbackE o st topN = .ok [] := by
    unfold fallbackE
    rw [hd]
    simp only [List.map_nil, List.length_nil, Nat.min_zero, List.range_zero]
    rfl
  rw [hfb]

theorem fallbackE_total (o : Oracles) (st : RAGState) (topN : Nat) :
    ∃ out, fallbackE o st topN = .ok out := by
  by_cases h : st.documents = []
  · refine ⟨[], ?_⟩
    unfold fallbackE
    rw [h]
    simp only [List.map_nil, List.length_nil, Nat.min_zero, List.range_zero]
    rfl
  · exact fallbackE_ok_exists o st topN h

theorem searchE_no_keywords (o : Oracles) (f : ScoreFn) (s : Settings) (st : RAGState)
    (q : Txt) (ct0 : Option Txt) (topN : Nat) (thr0 : Option ℚ)
    (hkw : searchKeywords o s q = []) (hcd : searchCompDocs s st q ct0 = []) :
    searchE o f s st q ct0 topN thr0 = fallbackE o st topN := by
  have hsc : searchDocScoresE o f s st q ct0 = .ok [] := by
    unfold searchDocScoresE
    rw [hcd, hkw]
    rw [show scoreCompDocsE f s st q [] (searchCompType s q ct0) [] [] = .ok [] from rfl]
    simp only [Bind.bind, Except.bind]
    rfl
  unfold searchE
  rw [hsc]
  simp only [Bind.bind, Except.bind]
  rw [show List.insertionSort pairGE ([] : List (Txt × ℚ)) = [] from rfl]
  exact assembleE_nil o st topN _

/-- C4: `search` never raises — for every input (and for every scorer,
including one that raises on every call) the wrapper either propagates the
body's successfully computed list unchanged or catches the internal error
and degrades to the empty list; on an empty chunk store the result is the
empty list; and when the query yields no keywords (empty or
punctuation-only query) and no competition filter applies, every returned
entry is marked as fallback (so the result is `[]` or fallback entries). -/
theorem c4_never_raises (o : Oracles) (f : ScoreFn) (s : Settings) (st : RAGState)
    (q : Txt) (ct0 : Option Txt) (topN : Nat) (thr0 : Option ℚ) :
    (searchWith o f s st q ct0 topN thr0 = [] ∨
      ∃ r, searchE o f s st q ct0 topN thr0 = .ok r ∧
        searchWith o f s st q ct0 topN thr0 = r) ∧
    (st.documents = [] → searchWith o f s st q ct0 topN thr0 = []) ∧
    (searchKeywords o s q = [] → searchCompDocs s st q ct0 = [] →
      ∀ r ∈ searchWith o f s st q ct0 topN thr0, r.isFallback = true) := by
  refine ⟨?_, searchWith_empty_docs o f s st q ct0 topN thr0, ?_⟩
  · cases hE : searchE o f s st q ct0 topN thr0 with
    | error e =>
      left
      simp [searchWith, hE]
    | ok r =>
      right
      exact ⟨r, rfl, by simp [searchWith, hE]⟩
  · intro hkw hcd r hr
    obtain ⟨out, hout⟩ := fallbackE_total o st topN
    have hsw : searchWith o f s st q ct0 topN thr0 = out := by
      unfold searchWith
      rw [searchE_no_keywords o f s st q ct0 topN thr0 hkw hcd, hout]
    rw [hsw] at hr
    exact ((fallbackE_ok_props o st topN out hout).2 r hr).2.1

/-! ## Claim C7 -/

theorem scoreCompDocsE_real (s : Settings) (st : RAGState) (q : Txt)
    (kws : List Txt) (ct : Option Txt) :
    ∀ (ids : List Txt) (acc : List (Txt × ℚ)),
      scoreCompDocsE (realScoreFn s) s st q kws ct ids acc
        = .ok (scoreCompDocs s st q kws ct ids acc) := by
  intro ids
  induction ids with
  | nil => intro acc; rfl
  | cons i rest ih =>
    intro acc
    unfold scoreCompDocsE scoreCompDocs
    by_cases hi : (alookup acc i).isSome
    · rw [if_pos hi, if_pos hi]
      exact ih acc
    · rw [if_neg hi, if_neg hi]
      cases hlk : alookup st.documents i with
      | none => exact ih acc
      | some doc =>
        simp only [realScoreFn, Bind.bind, Except.bind]
        exact ih _

theorem scoreKwInnerE_real (s : Settings) (st : RAGState) (q : Txt)
    (kws : List Txt) (ct : Option Txt) :
    ∀ (ids : List Txt) (acc : List (Txt × ℚ)),
      scoreKwInnerE (realScoreFn s) st q kws ct ids acc
        = .ok (scoreKwInner s st q kws ct ids acc) := by
  intro ids
  induction ids with
  | nil => intro acc; rfl
  | cons i rest ih =>
    intro acc
    unfold scoreKwInnerE scoreKwInner
    by_cases hi : (alookup acc i).isSome
    · rw [if_pos hi, if_pos hi]
      exact ih acc
    · rw [if_neg hi, if_neg hi]
      cases hlk : alookup st.documents i with
      | none => exact ih acc
      | some doc =>
        simp only [realScoreFn, Bind.bind, Except.bind]
        exact ih _

theorem scoreKwDocsE_real (s : Settings) (st : RAGState) (q : Txt)
    (kws : List Txt) (ct : Option Txt) :
    ∀ (l : List Txt) (acc : List (Txt × ℚ)),
      scoreKwDocsE (realScoreFn s) st q kws ct l acc
        = .ok (scoreKwDocs s st q kws ct l acc) := by
  intro l
  induction l with
  | nil => intro acc; rfl
  | cons kw rest ih =>
    intro acc
    unfold scoreKwDocsE scoreKwDocs
    cases hix : alookup st.index kw with
    | none => exact ih acc
    | some ids =>
      dsimp only
      rw [scoreKwInnerE_real s st q kws ct ids acc]
      simp only [Bind.bind, Except.bind]
      exact ih _

theorem searchDocScoresE_real (o : Oracles) (s : Settings) (st : RAGState)
    (q : Txt) (ct0 : Option Txt) :
    searchDocScoresE o (realScoreFn s) s st q ct0 = .ok (searchScores o s st q ct0) := by
  unfold searchDocScoresE searchScores searchCompScores
  rw [scoreCompDocsE_real]
  simp only [Bind.bind, Except.bind]
  exact scoreKwDocsE_real s st q _ _ _ _

/-- C7: when the scored candidate set of a query is empty and the chunk
store is non-empty, `search` returns exactly `min(top_n, |documents|)`
(hence up to `top_n`) randomly chosen stored chunks, each with score 0.01
and marked `is_fallback`; a no-match query never produces an error. -/
theorem c7_random_fallback (o : Oracles) (s : Settings) (st : RAGState) (q : Txt)
    (ct0 : Option Txt) (topN : Nat) (thr0 : Option ℚ)
    (hscores : searchScores o s st q ct0 = [])
    (hne : st.documents ≠ []) :
    (search o s st q ct0 topN thr0).length = min topN st.documents.length ∧
    ∀ r ∈ search o s st q ct0 topN thr0,
      r.score = 1/100 ∧ r.isFallback = true ∧ ∃ p ∈ st.documents, r.doc = p.2 := by
  have hE : searchE o (realScoreFn s) s st q ct0 topN thr0 = fallbackE o st topN := by
    unfold searchE
    rw [searchDocScoresE_real, hscores]
    simp only [Bind.bind, Except.bind]
    rw [show List.insertionSort pairGE ([] : List (Txt × ℚ)) = [] from rfl]
    exact assembleE_nil o st topN _
  obtain ⟨out, hout⟩ := fallbackE_ok_exists o st topN hne
  have hsearch : search o s st q ct0 topN thr0 = out := by
    unfold search searchWith
    rw [hE, hout]
  obtain ⟨h1, h2⟩ := fallbackE_ok_props o st topN out hout
  rw [hsearch]
  exact ⟨h1, h2⟩

/-! ## Claim C10: binding lemmas for the two scoring loops -/

theorem alookup_append_single_ne {β : Type} (l : List (Txt × β)) {k k' : Txt} (v' : β)
    (h : k' ≠ k) : alookup (l ++ [(k', v')]) k = alookup l k := by
  cases hl : alookup l k with
  | some v => exact alookup_append_of_some _ hl
  | none =>
    rw [alookup_append_of_none _ hl]
    simp [alookup, h]

theorem scoreCompDocs_preserve (s : Settings) (st : RAGState) (q : Txt)
    (kws : List Txt) (ct : Option Txt) (docId : Txt) (v : ℚ) :
    ∀ (ids : List Txt) (acc : List (Txt × ℚ)), alookup acc docId = some v →
      alookup (scoreCompDocs s st q kws ct ids acc) docId = some v := by
  intro ids
  induction ids with
  | nil => intro acc h; exact h
  | cons i rest ih =>
    intro acc h
    unfold scoreCompDocs
    by_cases hi : (alookup acc i).isSome
    · rw [if_pos hi]
      exact ih acc h
    · rw [if_neg hi]
      cases hlk : alookup st.documents i with
      | none => exact ih acc h
      | some doc => exact ih _ (alookup_append_of_some _ h)

theorem scoreCompDocs_binds (s : Settings) (st : RAGState) (q : Txt)
    (kws : List Txt) (ct : Option Txt) (docId : Txt) (doc : Doc)
    (hdoc : alookup st.documents docId = some doc) :
    ∀ (ids : List Txt) (acc : List (Txt × ℚ)), docId ∈ ids → alookup acc docId = none →
      alookup (scoreCompDocs s st q kws ct ids acc) docId
        = some (calcScore s q doc.content kws doc.competition ct
            * s.competitionTypeBoostFactor) := by
  intro ids
  induction ids with
  | nil => intro acc h; simp at h
  | cons i rest ih =>
    intro acc hmem hnone
    unfold scoreCompDocs
    by_cases hieq : i = docId
    · subst hieq
      rw [if_neg (by simp [hnone])]
      simp only [hdoc]
      apply scoreCompDocs_preserve
      rw [alookup_append_of_none _ hnone]
      simp [alookup]
    · have hmem' : docId ∈ rest := by
        rcases List.mem_cons.mp hmem with h | h
        · exact absurd h.symm hieq
        · exact h
      by_cases hi : (alookup acc i).isSome
      · rw [if_pos hi]
        exact ih _ hmem' hnone
      · rw [if_neg hi]
        cases hlk : alookup st.documents i with
        | none => exact ih _ hmem' hnone
        | some doc' =>
          refine ih _ hmem' ?_
          rw [alookup_append_single_ne _ _ hieq]
          exact hnone

theorem scoreKwInner_preserve (s : Settings) (st : RAGState) (q : Txt)
    (kws : List Txt) (ct : Option Txt) (docId : Txt) (v : ℚ) :
    ∀ (ids : List Txt) (acc : List (Txt × ℚ)), alookup acc docId = some v →
      alookup (scoreKwInner s st q kws ct ids acc) docId = some v := by
  intro ids
  induction ids with
  | nil => intro acc h; exact h
  | cons i rest ih =>
    intro acc h
    unfold scoreKwInner
    by_cases hi : (alookup acc i).isSome
    · rw [if_pos hi]
      exact ih acc h
    · rw [if_neg hi]
      cases hlk : alookup st.documents i with
      | none => exact ih acc h
      | some doc => exact ih _ (alookup_append_of_some _ h)

theorem scoreKwInner_none (s : Settings) (st : RAGState) (q : Txt)
    (kws : List Txt) (ct : Option Txt) (docId : Txt) :
    ∀ (ids : List Txt) (acc : List (Txt × ℚ)), docId ∉ ids → alookup acc docId = none →
      alookup (scoreKwInner s st q kws ct ids acc) docId = none := by
  intro ids
  induction ids with
  | nil => intro acc _ h; exact h
  | cons i rest ih =>
    intro acc hnm hnone
    have hieq : i ≠ docId := fun h => hnm (h ▸ List.mem_cons_self i rest)
    have hnm' : docId ∉ rest := fun h => hnm (List.mem_cons_of_mem _ h)
    unfold scoreKwInner
    by_cases hi : (alookup acc i).isSome
    · rw [if_pos hi]
      exact ih acc hnm' hnone
    · rw [if_neg hi]
      cases hlk : alookup st.documents i with
      | none => exact ih acc hnm' hnone
      | some doc =>
        refine ih _ hnm' ?_
        rw [alookup_append_single_ne _ _ hieq]
        exact hnone

theorem scoreKwInner_binds (s : Settings) (st : RAGState) (q : Txt)
    (kws : List Txt) (ct : Option Txt) (docId : Txt) (doc : Doc)
    (hdoc : alookup st.documents docId = some doc) :
    ∀ (ids : List Txt) (acc : List (Txt × ℚ)), docId ∈ ids → alookup acc docId = none →
      alookup (scoreKwInner s st q kws ct ids acc) docId
        = some (if sameTypeCond doc.competition ct then
                  calcScore s q doc.content kws doc.competition ct * (3/2)
                else calcScore s q doc.content kws doc.competition ct) := by
  intro ids
  induction ids with
  | nil => intro acc h; simp at h
  | cons i rest ih =>
    intro acc hmem hnone
    unfold scoreKwInner
    by_cases hieq : i = docId
    · subst hieq
      rw [if_neg (by simp [hnone])]
      simp only [hdoc]
      apply scoreKwInner_preserve
      rw [alookup_append_of_none _ hnone]
      simp [alookup]
    · have hmem' : docId ∈ rest := by
        rcases List.mem_cons.mp hmem with h | h
        · exact absurd h.symm hieq
        · exact h
      by_cases hi : (alookup acc i).isSome
      · rw [if_pos hi]
        exact ih _ hmem' hnone
      · rw [if_neg hi]
        cases hlk : alookup st.documents i with
        | none => exact ih _ hmem' hnone
        | some doc' =>
          refine ih _ hmem' ?_
          rw [alookup_append_single_ne _ _ hieq]
          exact hnone

theorem scoreKwDocs_preserve (s : Settings) (st : RAGState) (q : Txt)
    (kws : List Txt) (ct : Option Txt) (docId : Txt) (v : ℚ) :
    ∀ (l : List Txt) (acc : List (Txt × ℚ)), alookup acc docId = some v →
      alookup (scoreKwDocs s st q kws ct l acc) docId = some v := by
  intro l
  induction l with
  | nil => intro acc h; exact h
  | cons kw rest ih =>
    intro acc h
    unfold scoreKwDocs
    cases hix : alookup st.index kw with
    | none => exact ih acc h
    | some ids => exact ih _ (scoreKwInner_preserve s st q kws ct docId v ids acc h)

theorem scoreKwDocs_binds (s : Settings) (st : RAGState) (q : Txt)
    (kws : List Txt) (ct : Option Txt) (docId : Txt) (doc : Doc)
    (hdoc : alookup st.documents docId = some doc) :
    ∀ (l : List Txt) (acc : List (Txt × ℚ)),
      (∃ kw ∈ l, ∃ ids, alookup st.index kw = some ids ∧ docId ∈ ids) →
      alookup acc docId = none →
      alookup (scoreKwDocs s st q kws ct l acc) docId
        = some (if sameTypeCond doc.competition ct then
                  calcScore s q doc.content kws doc.competition ct * (3/2)
                else calcScore s q doc.content kws doc.competition ct) := by
  intro l
  induction l with
  | nil =>
    intro acc hex _
    obtain ⟨kw, hkw, _⟩ := hex
    simp at hkw
  | cons kw rest ih =>
    intro acc hex hnone
    obtain ⟨kw', hkw', ids', hix', hmem'⟩ := hex
    unfold scoreKwDocs
    cases hix : alookup st.index kw with
    | none =>
      refine ih acc ⟨kw', ?_, ids', hix', hmem'⟩ hnone
      rcases List.mem_cons.mp hkw' with h | h
      · subst h
        rw [hix'] at hix
        cases hix
      · exact h
    | some ids =>
      by_cases hd : docId ∈ ids
      · exact scoreKwDocs_preserve s st q kws ct docId _ rest _
          (scoreKwInner_binds s st q kws ct docId doc hdoc ids acc hd hnone)
      · have hnone' : alookup (scoreKwInner s st q kws ct ids acc) docId = none :=
          scoreKwInner_none s st q kws ct docId ids acc hd hnone
        refine ih _ ⟨kw', ?_, ids', hix', hmem'⟩ hnone'
        rcases List.mem_cons.mp hkw' with h | h
        · subst h
          rw [hix'] at hix
          injection hix with hix
          subst hix
          exact absurd hmem' hd
        · exact h

/-- C10 (implicit): chunks listed in the target competition type's index
whose stored type matches the target get the boost factor applied twice —
the first loop of `search` records the scorer's output multiplied once more
by `competition_type_boost_factor`, while the scorer itself (under the
stage-5 match condition) already multiplied the pre-boost score by that same
factor (1.5x stronger below 0.2) before length normalization; same-type
chunks reached only through keyword posting lists instead get a fixed extra
1.5 factor on the scorer's output. -/
theorem c10_double_boost (o : Oracles) (s : Settings) (st : RAGState) (q : Txt)
    (ct0 : Option Txt) (c : Txt)
    (hct : searchCompType s q ct0 = some c) (hc : c ≠ []) :
    (∀ ids docId doc, alookup st.competitionDocs c = some ids →
      docId ∈ ids → alookup st.documents docId = some doc →
      compMatchCond q doc.competition (some c) = true →
      ¬ (doc.content = [] ∨ (searchKeywords o s q = [] ∧ q = [])) →
      alookup (searchScores o s st q ct0) docId
        = some (calcScore s q doc.content (searchKeywords o s q) doc.competition (some c)
            * s.competitionTypeBoostFactor)
      ∧ calcScore s q doc.content (searchKeywords o s q) doc.competition (some c)
        = lengthAdjustApply (pyLower doc.content)
            (preBoostScore s q doc.content (searchKeywords o s q)
              * (s.competitionTypeBoostFactor
                * (if preBoostScore s q doc.content (searchKeywords o s q) < 1/5
                   then 3/2 else 1))))
    ∧ (∀ docId doc kw ids, alookup (searchCompScores o s st q ct0) docId = none →
        kw ∈ searchKeywords o s q → alookup st.index kw = some ids → docId ∈ ids →
        alookup st.documents docId = some doc → doc.competition = some c →
        alookup (searchScores o s st q ct0) docId
          = some (calcScore s q doc.content (searchKeywords o s q) doc.competition (some c)
              * (3/2))) := by
  constructor
  · intro ids docId doc hids hmem hdoc hmatch hguard
    have hcompdocs : searchCompDocs s st q ct0 = ids := by
      unfold searchCompDocs
      rw [hct]
      dsimp only
      rw [if_pos hc, hids]
      rfl
    have hbind : alookup (searchCompScores o s st q ct0) docId
        = some (calcScore s q doc.content (searchKeywords o s q) doc.competition (some c)
            * s.competitionTypeBoostFactor) := by
      unfold searchCompScores
      rw [hcompdocs, hct]
      exact scoreCompDocs_binds s st q _ (some c) docId doc hdoc ids [] hmem rfl
    constructor
    · unfold searchScores
      rw [hct]
      exact scoreKwDocs_preserve s st q _ (some c) docId _ _ _ hbind
    · unfold calcScore
      rw [if_neg hguard]
      unfold compBoostApply
      rw [if_pos hmatch]
  · intro docId doc kw ids hnone hkw hix hmem hdoc hdcomp
    have hsame : sameTypeCond doc.competition (some c) = true := by
      rw [hdcomp]
      unfold sameTypeCond optTruthy
      simp [hc]
    unfold searchScores
    rw [hct]
    have hres := scoreKwDocs_binds s st q (searchKeywords o s q) (some c) docId doc hdoc
      (searchKeywords o s q) (searchCompScores o s st q ct0)
      ⟨kw, hkw, ids, hix, hmem⟩ hnone
    rw [hres, if_pos hsame]

/-! ## Witness theorems -/

/-- Witness for C1 at a concrete store and question. -/
theorem c1_route_prefers_structured_witness :
    routeQuery wOracles (fun _ => (0 : Nat)) wKB ("泰迪杯数据挖掘挑战赛报名时间".toList)
      = RouteResult.structured
          { answer := "4月".toList, confidence := 1,
            source := "泰迪杯数据挖掘挑战赛".toList ++ '-' :: "报名时间".toList,
            competitionType := "泰迪杯数据挖掘挑战赛".toList,
            infoType := "报名时间".toList } :=
  c1_route_prefers_structured wOracles (fun _ => (0 : Nat)) wKB
    ("泰迪杯数据挖掘挑战赛报名时间".toList) ("泰迪杯数据挖掘挑战赛".toList)
    ("报名时间".toList) ("4月".toList) (by decide) (by decide) (by decide) (by decide)

/-- Witness for C2 at a concrete store, threshold 4 and `top_n = 1`. -/
theorem c2_relaxed_pass_witness :
    (∀ r ∈ [mkResult wDoc1 3], (4:ℚ)/2 ≤ r.score) ∧
    (search wOracles wSettings wState ("zz".toList) none 1 (some 4)).length ≤ 1 :=
  c2_relaxed_pass wOracles wSettings wState ("zz".toList) none 1 4
    [("doc_1".toList, 3)] [] [mkResult wDoc1 3]
    (by with_unfolding_all decide) (by decide) (by with_unfolding_all decide)

/-- Witness for C4: with an empty store, an always-raising scorer and the
empty query the wrapper returns the empty list, and every returned entry
(vacuously) is fallback-marked. -/
theorem c4_never_raises_witness :
    searchWith wOracles wFailScore wSettings wEmptyState [] none 5 none = [] ∧
    ∀ r ∈ searchWith wOracles wFailScore wSettings wEmptyState [] none 5 none,
      r.isFallback = true :=
  ⟨(c4_never_raises wOracles wFailScore wSettings wEmptyState [] none 5 none).2.1 rfl,
   (c4_never_raises wOracles wFailScore wSettings wEmptyState [] none 5 none).2.2
     (by decide) (by decide)⟩

/-- Witness for C7: a no-match query over a non-empty store yields the
random fallback. -/
theorem c7_random_fallback_witness :
    (search wOracles wSettings wState7 ("zz".toList) none 5 none).length
      = min 5 wState7.documents.length ∧
    ∀ r ∈ search wOracles wSettings wState7 ("zz".toList) none 5 none,
      r.score = 1/100 ∧ r.isFallback = true ∧ ∃ p ∈ wState7.documents, r.doc = p.2 :=
  c7_random_fallback wOracles wSettings wState7 ("zz".toList) none 5 none
    (by with_unfolding_all decide) (by decide)

/-- Witness for C10 at a two-chunk store: the competition-indexed chunk's
recorded score and the keyword-indexed chunk's recorded score. -/
theorem c10_double_boost_witness :
    (alookup (searchScores wOracles wSettings wState ("zz".toList) (some ("c".toList)))
        ("doc_1".toList)
      = some (calcScore wSettings ("zz".toList) wDoc1.content
            (searchKeywords wOracles wSettings ("zz".toList)) wDoc1.competition
            (some ("c".toList)) * wSettings.competitionTypeBoostFactor)) ∧
    (alookup (searchScores wOracles wSettings wState ("zz".toList) (some ("c".toList)))
        ("doc_2".toList)
      = some (calcScore wSettings ("zz".toList) wDoc2.content
            (searchKeywords wOracles wSettings ("zz".toList)) wDoc2.competition
            (some ("c".toList)) * (3/2))) :=
  ⟨((c10_double_boost wOracles wSettings wState ("zz".toList) (some ("c".toList))
      ("c".toList) (by decide) (by decide)).1
      ["doc_1".toList] ("doc_1".toList) wDoc1 (by decide) (by decide)
      (by decide) (by decide) (by decide)).1,
   (c10_double_boost wOracles wSettings wState ("zz".toList) (some ("c".toList))
      ("c".toList) (by decide) (by decide)).2
      ("doc_2".toList) wDoc2 ("zz".toList) ["doc_2".toList]
      (by with_unfolding_all decide) (by decide) (by decide) (by decide)
      (by decide) (by decide)⟩

end RobotRAG
